import Mathlib

/-! The CONV1D accelerator testbench (tb/conv1d_tb.cpp).

A shallow embedding of the orchestrator of the testbench: the clock and reset
generators, the main simulation loop with its watchdog and grace period, and
the final summary.

The testbench components (driver, monitors, scoreboard) and the Verilated
model of the accelerator are declared in headers that are not part of the
translated file.  The loop is therefore embedded over an arbitrary
implementation of them (`Env`): every theorem about the loop holds for every
behaviour of the hardware model and of the components.  A scoreboard written
after the prose specification is given separately (`Scb`).

Conventions.
* Unsigned machine integers are natural numbers; increments are written with
  the wrap of their width (32 bits for `unsigned int`, 64 bits for
  `vluint64_t`).
* The one-bit ports `clk_i` and `rst_ni` are natural numbers, `clk_i ^= 1`
  is `Nat.xor`.  They are written by `clkGen` and `rstDut` only.
* Every call on a component is recorded in `TbState.log`, newest first;
  `TbState.trace` is the log in the order of the calls.
-/

namespace Conv1dTb

/-! ## Constants (the defines of lines 36-42) -/

/-- END_OF_RESET_TIME, line 37. -/
@[reducible] def END_OF_RESET_TIME : Nat := 5

/-- MAX_SIM_CYCLES, line 38 (the literal 2e6). -/
@[reducible] def MAX_SIM_CYCLES : Nat := 2000000

/-- MAX_SIM_TIME, line 39.  The source compares the 64-bit time with this
double; every value involved is far below 2^53, so the comparison is exact. -/
@[reducible] def MAX_SIM_TIME : Nat := MAX_SIM_CYCLES * 2

/-- WATCHDOG_TIMEOUT, line 40: cycles to wait for a program step to complete. -/
@[reducible] def WATCHDOG_TIMEOUT : Nat := 100

/-- END_OF_TEST_TIMEOUT, line 41: cycles between done assertion and simulation end. -/
@[reducible] def END_OF_TEST_TIMEOUT : Nat := 10

/-- RUN_CYCLES, line 42. -/
@[reducible] def RUN_CYCLES : Nat := 500

/-- EXIT_SUCCESS of the C library. -/
@[reducible] def EXIT_SUCCESS : Nat := 0

/-! ## Transactions -/

/-- The fields of an OBI request that the generators of lines 291-319 write. -/
structure ObiReq where
  req : Nat
  we : Nat
  be : Nat
  addr : Nat
  wdata : Nat
  deriving DecidableEq, Repr

/-- An OBI request transaction (member obi_req). -/
structure ObiReqTx where
  obi_req : ObiReq
  deriving DecidableEq, Repr

/-- The fields of a register-interface request that the generators of lines
321-349 write. -/
structure RegReq where
  valid : Nat
  write : Nat
  wstrb : Nat
  addr : Nat
  wdata : Nat
  deriving DecidableEq, Repr

/-- A register-interface request transaction (member reg_req). -/
structure RegReqTx where
  reg_req : RegReq
  deriving DecidableEq, Repr

/-! ## The components the loop calls -/

/-- An implementation of everything main calls and does not define: the
Verilated model with its simulation context (eval, gotFinish, final), the
driver, the two monitors and the scoreboard.  A value of type ε is the joint
state of all of them; the monitors hold a pointer to the scoreboard, so any
call may change any part of it. -/
structure Env (ε : Type) where
  /-- dut->eval(), given the values of the ports clk_i and rst_ni. -/
  eval : ε → Nat → Nat → ε
  /-- cntx->gotFinish(). -/
  gotFinish : ε → Bool
  /-- dut->final(). -/
  final : ε → ε
  /-- drv->drive(obi_req, reg_req). -/
  drive : ε → Option ObiReqTx → Option RegReqTx → ε
  /-- reqMon->monitor(). -/
  reqMonitor : ε → ε
  /-- rspMon->monitor(). -/
  rspMonitor : ε → ε
  /-- rspMon->irq(). -/
  irq : ε → Bool
  /-- reqMon->acceptedObi(). -/
  acceptedObi : ε → Bool
  /-- reqMon->acceptedReg(). -/
  acceptedReg : ε → Bool
  /-- rspMon->getRegData(). -/
  getRegData : ε → Nat
  /-- rspMon->isDataReadyObi(). -/
  isDataReadyObi : ε → Bool
  /-- rspMon->getObiData(). -/
  getObiData : ε → Nat
  /-- scb->scheduleRegCheck(data). -/
  scheduleRegCheck : ε → Nat → ε
  /-- scb->scheduleObiCheck(data). -/
  scheduleObiCheck : ε → Nat → ε
  /-- scb->checkData(): the new state and the returned int. -/
  checkData : ε → ε × Int
  /-- scb->notifyError(). -/
  notifyError : ε → ε
  /-- scb->getErrNum(). -/
  getErrNum : ε → Nat
  /-- scb->getTxNum(). -/
  getTxNum : ε → Nat
  /-- scb->isDone(). -/
  isDone : ε → Bool

/-- A call made by main, as recorded in the log. -/
inductive Event where
  | rstDut (t : Nat)
  | clkGen
  | eval
  | drive (obi : Option ObiReqTx) (reg : Option RegReqTx)
  | reqMonitor
  | rspMonitor
  | scheduleRegCheck (d : Nat)
  | scheduleObiCheck (d : Nat)
  | checkData (r : Int)
  | watchdogWarn
  | notifyError
  | endOfSimLog
  | dump (t : Nat)
  | timeInc
  deriving DecidableEq, Repr

/-! ## Clock and reset (lines 257-269) -/

/-- clkGen, lines 257-260: dut->clk_i ^= 1. -/
def clkGen (clk_i : Nat) : Nat := clk_i ^^^ 1

/-- rstDut, lines 262-269: the value left on rst_ni; the previous value
(first argument) is overwritten. -/
def rstDut (_rst_prev : Nat) (sim_time : Nat) : Nat :=
  let rst_ni := 1
  if sim_time > 1 ∧ sim_time < END_OF_RESET_TIME then 0 else rst_ni

/-! ## The state of main -/

/-- The local variables of main (lines 140-158), the two ports it writes, the
simulation time, the global sim_cycles, the state of the components and the
log of calls. -/
structure TbState (ε : Type) where
  env : ε
  time : Nat
  clk_i : Nat
  rst_ni : Nat
  sim_cycles : Nat
  obi_req : Option ObiReqTx
  obi_check_req : Option ObiReqTx
  obi_rdata : Nat
  obi_check_data : Nat
  obi_accepted : Bool
  reg_req : Option RegReqTx
  reg_check_req : Option RegReqTx
  reg_rdata : Nat
  reg_check_data : Nat
  reg_accepted : Bool
  irq_received : Bool
  end_of_test : Bool
  exit_timer : Nat
  watchdog : Nat
  prev_step_cnt : Nat
  step_cnt : Nat
  log : List Event

/-- The calls in the order they were made. -/
def TbState.trace {ε : Type} (s : TbState ε) : List Event := s.log.reverse

/-- The state at line 160: the initialisers of lines 140-158, time 0 of a new
simulation context, sim_cycles 0 (line 58).  The state of the components and
the value of the clock port after construction are parameters. -/
def initState {ε : Type} (e0 : ε) (clk0 : Nat) (rst0 : Nat) : TbState ε :=
  { env := e0, time := 0, clk_i := clk0, rst_ni := rst0, sim_cycles := 0,
    obi_req := none, obi_check_req := none, obi_rdata := 0, obi_check_data := 0,
    obi_accepted := false,
    reg_req := none, reg_check_req := none, reg_rdata := 0, reg_check_data := 0,
    reg_accepted := false,
    irq_received := false,
    end_of_test := false, exit_timer := 0, watchdog := 0, prev_step_cnt := 0,
    step_cnt := 0, log := [] }

/-- How the while loop of lines 161-227 is left. -/
inductive LoopExit where
  /-- The loop condition failed on gotFinish. -/
  | finish
  /-- The loop condition failed on time < MAX_SIM_TIME. -/
  | ceiling
  /-- The break of line 211. -/
  | watchdog
  /-- The break of line 218. -/
  | endOfSim
  /-- The model ran out of fuel (never the case, see mainLoop_fuel). -/
  | outOfFuel
  deriving DecidableEq, Repr

/-! ## The body of the loop -/

variable {ε : Type}

/-- Lines 176-184: drive, release the two requests, settle. -/
def driveStep (E : Env ε) (s : TbState ε) : TbState ε :=
  let s := { s with env := E.drive s.env s.obi_req s.reg_req,
                    log := Event.drive s.obi_req s.reg_req :: s.log }
  let s := { s with obi_req := none, reg_req := none }
  { s with env := E.eval s.env s.clk_i s.rst_ni, log := Event.eval :: s.log }

/-- Lines 186-192: the two monitors, then the three flags read from them. -/
def monitorStep (E : Env ε) (s : TbState ε) : TbState ε :=
  let s := { s with env := E.reqMonitor s.env, log := Event.reqMonitor :: s.log }
  let s := { s with env := E.rspMonitor s.env, log := Event.rspMonitor :: s.log }
  { s with irq_received := E.irq s.env,
           obi_accepted := E.acceptedObi s.env,
           reg_accepted := E.acceptedReg s.env }

/-- Lines 195-198: the register side of the scheduling. -/
def scheduleReg (E : Env ε) (s : TbState ε) : TbState ε :=
  if s.reg_accepted then
    let s := { s with reg_rdata := E.getRegData s.env }
    if s.reg_check_req.isSome then
      { s with env := E.scheduleRegCheck s.env s.reg_check_data,
               log := Event.scheduleRegCheck s.reg_check_data :: s.log }
    else s
  else s

/-- Lines 199-200: the OBI side of the scheduling. -/
def scheduleObi (E : Env ε) (s : TbState ε) : TbState ε :=
  let s := if E.isDataReadyObi s.env then { s with obi_rdata := E.getObiData s.env } else s
  if s.obi_accepted ∧ s.obi_check_req.isSome then
    { s with env := E.scheduleObiCheck s.env s.obi_check_data,
             log := Event.scheduleObiCheck s.obi_check_data :: s.log }
  else s

/-- Line 203: trigger the scheduled checks. -/
def checkStep (E : Env ε) (s : TbState ε) : TbState ε :=
  let r := E.checkData s.env
  let s := { s with env := r.1, log := Event.checkData r.2 :: s.log }
  if r.2 ≠ 0 then { s with end_of_test := true } else s

/-- Lines 206-207: the watchdog counter. -/
def watchdogUpdate (s : TbState ε) : TbState ε :=
  if s.prev_step_cnt ≠ s.step_cnt then { s with watchdog := 0 }
  else { s with watchdog := (s.watchdog + 1) % 2 ^ 32 }

/-- Lines 208-220: the two exits of the block.  The second component is the
break taken, if any. -/
def exitStep (E : Env ε) (s : TbState ε) : TbState ε × Option LoopExit :=
  if s.watchdog > WATCHDOG_TIMEOUT then
    ({ s with env := E.notifyError s.env,
              log := Event.notifyError :: Event.watchdogWarn :: s.log },
     some LoopExit.watchdog)
  else
    let s := { s with prev_step_cnt := s.step_cnt }
    if s.end_of_test then
      let t := s.exit_timer
      let s := { s with exit_timer := (t + 1) % 2 ^ 32 }
      if t = END_OF_TEST_TIMEOUT then
        ({ s with log := Event.endOfSimLog :: s.log }, some LoopExit.endOfSim)
      else (s, none)
    else (s, none)

/-- Lines 172-220: the block run in a cycle with the clock high after the reset. -/
def activeBlock (E : Env ε) (s : TbState ε) : TbState ε × Option LoopExit :=
  exitStep E (watchdogUpdate (checkStep E (scheduleObi E (scheduleReg E
    (monitorStep E (driveStep E s))))))

/-- Lines 164-168: reset, clock, evaluation of the model. -/
def clockStep (E : Env ε) (s : TbState ε) : TbState ε :=
  let s := { s with rst_ni := rstDut s.rst_ni s.time, log := Event.rstDut s.time :: s.log }
  let s := { s with clk_i := clkGen s.clk_i, log := Event.clkGen :: s.log }
  { s with env := E.eval s.env s.clk_i s.rst_ni, log := Event.eval :: s.log }

/-- The condition of line 170, on the state after clockStep. -/
def isActive (s : TbState ε) : Bool :=
  decide (s.clk_i = 1 ∧ s.time > END_OF_RESET_TIME)

/-- Lines 224-226: dump, count the cycle, advance the time. -/
def advanceStep (gen_waves : Bool) (s : TbState ε) : TbState ε :=
  let s := if gen_waves then { s with log := Event.dump s.time :: s.log } else s
  let s := if s.clk_i = 1 then { s with sim_cycles := (s.sim_cycles + 1) % 2 ^ 64 } else s
  { s with time := (s.time + 1) % 2 ^ 64, log := Event.timeInc :: s.log }

/-- One iteration of the while loop, lines 162-227.  A break skips lines
224-226. -/
def tick (E : Env ε) (gen_waves : Bool) (s : TbState ε) : TbState ε × Option LoopExit :=
  let s := clockStep E s
  if isActive s then
    match activeBlock E s with
    | (s, some x) => (s, some x)
    | (s, none) => (advanceStep gen_waves s, none)
  else (advanceStep gen_waves s, none)

/-- The while loop of lines 161-227, with fuel for the number of iterations. -/
def mainLoop (E : Env ε) (gen_waves : Bool) : Nat → TbState ε → TbState ε × LoopExit
  | 0, s => (s, LoopExit.outOfFuel)
  | fuel + 1, s =>
    if E.gotFinish s.env then (s, LoopExit.finish)
    else if ¬ s.time < MAX_SIM_TIME then (s, LoopExit.ceiling)
    else
      match tick E gen_waves s with
      | (s, some x) => (s, x)
      | (s, none) => mainLoop E gen_waves fuel s

/-- The loop from line 160, with enough fuel for every run (mainLoop_fuel). -/
def runLoop (E : Env ε) (gen_waves : Bool) (e0 : ε) (clk0 rst0 : Nat) :
    TbState ε × LoopExit :=
  mainLoop E gen_waves (MAX_SIM_TIME + 1) (initState e0 clk0 rst0)

/-! ## The summary (lines 229-254) -/

/-- The three summaries main can print. -/
inductive Outcome where
  | checksFailed
  | checksPending
  | checksPassed
  deriving DecidableEq, Repr

/-- What main does after the loop: the summary line, its logger (TB_ERR or
TB_SUCCESS), the two numbers printed, whether the trace was closed, and the
exit status of the process. -/
structure Report where
  outcome : Outcome
  errorTagged : Bool
  shownErrors : Nat
  shownTransactions : Nat
  traceClosed : Bool
  exitStatus : Nat
  deriving DecidableEq, Repr

/-- Lines 233-254 as a function of what the scoreboard answers to getErrNum,
getTxNum and isDone. -/
def summary (errNum txNum : Nat) (done : Bool) (gen_waves : Bool) : Report :=
  if errNum > 0 then
    { outcome := Outcome.checksFailed, errorTagged := true, shownErrors := errNum,
      shownTransactions := txNum, traceClosed := gen_waves, exitStatus := EXIT_SUCCESS }
  else if !done then
    { outcome := Outcome.checksPending, errorTagged := true, shownErrors := errNum,
      shownTransactions := txNum, traceClosed := gen_waves, exitStatus := EXIT_SUCCESS }
  else
    { outcome := Outcome.checksPassed, errorTagged := false, shownErrors := errNum,
      shownTransactions := txNum, traceClosed := gen_waves, exitStatus := 0 }

/-- Lines 160-254: the loop, dut->final(), the summary. -/
def main (E : Env ε) (gen_waves : Bool) (e0 : ε) (clk0 rst0 : Nat) : Report :=
  let r := runLoop E gen_waves e0 clk0 rst0
  let e := E.final r.1.env
  summary (E.getErrNum e) (E.getTxNum e) (E.isDone e) gen_waves

/-! ## Scripted components -/

/-- The state of the scripted components: the number of checkData calls so far
and the error count. -/
structure Script where
  checks : Nat
  errs : Nat
  deriving DecidableEq, Repr

/-- Components that follow a script: the n-th checkData call (from 0) returns
fire n, the model signals finish once fin n holds after n checks, requests are
accepted in cycle n when acc n holds; notifyError increments the 32-bit error
count, which nothing else changes. -/
def scriptEnv (fire : Nat → Int) (fin acc : Nat → Bool) : Env Script :=
  { eval := fun e _ _ => e
    gotFinish := fun e => fin e.checks
    final := fun e => e
    drive := fun e _ _ => e
    reqMonitor := fun e => e
    rspMonitor := fun e => e
    irq := fun _ => false
    acceptedObi := fun e => acc e.checks
    acceptedReg := fun e => acc e.checks
    getRegData := fun _ => 0
    isDataReadyObi := fun _ => false
    getObiData := fun _ => 0
    scheduleRegCheck := fun e _ => e
    scheduleObiCheck := fun e _ => e
    checkData := fun e => ({ e with checks := e.checks + 1 }, fire e.checks)
    notifyError := fun e => { e with errs := (e.errs + 1) % 2 ^ 32 }
    getErrNum := fun e => e.errs
    getTxNum := fun _ => 0
    isDone := fun _ => true }

/-! ## Reading the log -/

/-- Whether the call is drv->drive. -/
def Event.isDrive : Event → Bool
  | Event.drive _ _ => true
  | _ => false

/-- Whether the call is scb->notifyError. -/
def Event.isNotify : Event → Bool
  | Event.notifyError => true
  | _ => false

/-- Whether the call is one of the two schedule calls of the scoreboard. -/
def Event.isSchedule : Event → Bool
  | Event.scheduleRegCheck _ => true
  | Event.scheduleObiCheck _ => true
  | _ => false

/-- The number of active cycles in a log: every active cycle starts with the
one drive call of line 177. -/
def activeCycles (log : List Event) : Nat := log.countP Event.isDrive

/-- The number of notifyError calls in a log. -/
def notifyCount (log : List Event) : Nat := log.countP Event.isNotify

/-- The number (from 1) of the first active cycle whose checkData call
returned non-zero, if there is one.  The log is read newest first: the call
counts when no older call fired, and its cycle is the number of drive calls
made up to it. -/
def firstFire : List Event → Option Nat
  | [] => none
  | ev :: older =>
    match firstFire older with
    | some k => some k
    | none =>
      match ev with
      | Event.checkData r => if r ≠ 0 then some (activeCycles older) else none
      | _ => none

/-- The calls made between two states of one run, in the order they were made. -/
def callsBetween (s t : TbState ε) : List Event :=
  (t.log.take (t.log.length - s.log.length)).reverse

/-- The calls of the block of lines 172-220 started in state s. -/
def blockCalls (E : Env ε) (s : TbState ε) : List Event :=
  callsBetween s (activeBlock E s).1

/-- The calls of one iteration of the loop started in state s. -/
def tickCalls (E : Env ε) (gen_waves : Bool) (s : TbState ε) : List Event :=
  callsBetween s (tick E gen_waves s).1

/-! ## The variables that steer the loop -/

/-- The part of the state the control flow and the arguments of the calls
depend on. -/
structure Ctl where
  time : Nat
  clk_i : Nat
  rst_ni : Nat
  obi_req : Option ObiReqTx
  obi_check_req : Option ObiReqTx
  obi_check_data : Nat
  reg_req : Option RegReqTx
  reg_check_req : Option RegReqTx
  reg_check_data : Nat
  end_of_test : Bool
  exit_timer : Nat
  watchdog : Nat
  prev_step_cnt : Nat
  step_cnt : Nat

/-- The steering part of a state. -/
def TbState.ctl (s : TbState ε) : Ctl :=
  { time := s.time, clk_i := s.clk_i, rst_ni := s.rst_ni,
    obi_req := s.obi_req, obi_check_req := s.obi_check_req,
    obi_check_data := s.obi_check_data,
    reg_req := s.reg_req, reg_check_req := s.reg_check_req,
    reg_check_data := s.reg_check_data,
    end_of_test := s.end_of_test, exit_timer := s.exit_timer,
    watchdog := s.watchdog, prev_step_cnt := s.prev_step_cnt, step_cnt := s.step_cnt }

/-- The state of the components after the two monitor calls of the cycle
started in s: what acceptedObi, acceptedReg and the data getters are read from. -/
def monitoredEnv (E : Env ε) (s : TbState ε) : ε :=
  (monitorStep E (driveStep E s)).env

/-- The schedule calls of the cycle started in s, newest first (lines 195-200). -/
def scheduleCalls (E : Env ε) (s : TbState ε) : List Event :=
  (if E.acceptedObi (monitoredEnv E s) = true ∧ s.obi_check_req.isSome = true
    then [Event.scheduleObiCheck s.obi_check_data] else []) ++
  (if E.acceptedReg (monitoredEnv E s) = true ∧ s.reg_check_req.isSome = true
    then [Event.scheduleRegCheck s.reg_check_data] else [])

/-- The state before line 203 of the cycle started in s. -/
def scheduled (E : Env ε) (s : TbState ε) : TbState ε :=
  scheduleObi E (scheduleReg E (monitorStep E (driveStep E s)))

/-- What checkData returns in the cycle started in s. -/
def checkResult (E : Env ε) (s : TbState ε) : Int :=
  (E.checkData (scheduled E s).env).2

/-- The state before line 208 of the cycle started in s. -/
def preExit (E : Env ε) (s : TbState ε) : TbState ε :=
  watchdogUpdate (checkStep E (scheduled E s))

/-! ## The invariant of the loop -/

/-- Whether the call is neither drive, nor notifyError, nor checkData. -/
def Event.isQuiet : Event → Bool
  | Event.drive _ _ => false
  | Event.notifyError => false
  | Event.checkData _ => false
  | _ => true

/-- What holds of the steering variables c and of the log whenever the loop
condition of line 161 is evaluated. -/
structure CtlInv (c : Ctl) (log : List Event) : Prop where
  clk : c.clk_i ≤ 1
  step : c.step_cnt = 0
  prev : c.prev_step_cnt = 0
  wd : c.watchdog = activeCycles log
  wd_le : c.watchdog ≤ WATCHDOG_TIMEOUT
  no_notify : notifyCount log = 0
  time_le : c.time ≤ 6 + 2 * c.watchdog + (if c.clk_i = 1 then 0 else 1)
  obi_req : c.obi_req = none
  reg_req : c.reg_req = none
  obi_check_req : c.obi_check_req = none
  reg_check_req : c.reg_check_req = none
  eot : c.end_of_test = (firstFire log).isSome
  timer : match firstFire log with
    | none => c.exit_timer = 0
    | some k => k + c.exit_timer = c.watchdog + 1 ∧ 1 ≤ c.exit_timer ∧
        c.exit_timer ≤ END_OF_TEST_TIMEOUT

/-- The invariant on a state of main. -/
def LoopInv (s : TbState ε) : Prop := CtlInv s.ctl s.log

/-- What holds when the loop is left, by the way it is left. -/
def LoopPost (E : Env ε) (r : TbState ε × LoopExit) : Prop :=
  match r.2 with
  | LoopExit.finish => LoopInv r.1 ∧ E.gotFinish r.1.env = true
  | LoopExit.ceiling => False
  | LoopExit.outOfFuel => False
  | LoopExit.watchdog =>
      activeCycles r.1.log = WATCHDOG_TIMEOUT + 1 ∧ notifyCount r.1.log = 1 ∧
      r.1.time ≤ 2 * WATCHDOG_TIMEOUT + 7 ∧
      (∀ k, firstFire r.1.log = some k → WATCHDOG_TIMEOUT < k + END_OF_TEST_TIMEOUT) ∧
      ∃ e, r.1.env = E.notifyError e
  | LoopExit.endOfSim =>
      ∃ k, firstFire r.1.log = some k ∧ activeCycles r.1.log = k + END_OF_TEST_TIMEOUT ∧
        k + END_OF_TEST_TIMEOUT ≤ WATCHDOG_TIMEOUT ∧ notifyCount r.1.log = 0
/-- The laws of the error count used for the stall timeout: the count
belongs to the scoreboard, so the model, the driver and the monitors leave it
alone, as does a checkData call in which no check fires; a checkData call
adds at most two errors, one per protocol; notifyError increments the 32-bit
counter. -/
structure ErrNumLaws (E : Env ε) : Prop where
  eval : ∀ e c r, E.getErrNum (E.eval e c r) = E.getErrNum e
  final : ∀ e, E.getErrNum (E.final e) = E.getErrNum e
  drive : ∀ e a b, E.getErrNum (E.drive e a b) = E.getErrNum e
  reqMonitor : ∀ e, E.getErrNum (E.reqMonitor e) = E.getErrNum e
  rspMonitor : ∀ e, E.getErrNum (E.rspMonitor e) = E.getErrNum e
  checkData : ∀ e, (E.checkData e).2 = 0 → E.getErrNum (E.checkData e).1 = E.getErrNum e
  checkData_le : ∀ e, E.getErrNum (E.checkData e).1 ≤ E.getErrNum e + 2
  notifyError : ∀ e, E.getErrNum (E.notifyError e) = (E.getErrNum e + 1) % 2 ^ 32
/-- Whether the call is made after checkData: by the watchdog branch, by the
end-of-simulation branch, or by lines 224-226. -/
def Event.isTail : Event → Bool
  | Event.watchdogWarn => true
  | Event.notifyError => true
  | Event.endOfSimLog => true
  | Event.dump _ => true
  | Event.timeInc => true
  | _ => false

/-- The state after n iterations of the loop body, breaks and the loop
condition left aside. -/
def ticks (E : Env ε) (gen_waves : Bool) : Nat → TbState ε → TbState ε
  | 0, s => s
  | n + 1, s => ticks E gen_waves n (tick E gen_waves s).1

/-- Modelled from the spec: the two bus protocols of the accelerator, the
memory-style protocol (OBI) and the register interface. -/
inductive Protocol where
  | obi
  | reg
  deriving DecidableEq, Repr

/-- Modelled from the spec: the scoreboard (class Scb, declared in
tb_components.hh, which is not among the translated sources).  It holds one
FIFO of expected data per protocol, oldest first, and the two 32-bit counters
error_count and transaction_count. -/
structure Scb where
  pending : Protocol → List Nat
  error_count : Nat
  transaction_count : Nat

/-- Modelled from the spec: the scoreboard at process start, nothing
scheduled and both counters reset. -/
def Scb.init : Scb :=
  { pending := fun _ => [], error_count := 0, transaction_count := 0 }

/-- Modelled from the spec: scheduleObiCheck and scheduleRegCheck enqueue an
expectation on the FIFO of their protocol. -/
def Scb.schedule (s : Scb) (p : Protocol) (expected : Nat) : Scb :=
  { s with pending := fun q => if q = p then s.pending q ++ [expected] else s.pending q }

/-- Modelled from the spec: the part of checkData for one protocol.  With a
pending expectation and a freshly observed valid response, the oldest
expectation is popped and compared with the observed data; a mismatch
increments error_count; the comparison increments transaction_count.  The
flag tells whether a check fired. -/
def Scb.checkProtocol (s : Scb) (p : Protocol) (rsp : Option Nat) : Scb × Bool :=
  match s.pending p, rsp with
  | expected :: rest, some actual =>
    ({ pending := fun q => if q = p then rest else s.pending q,
       error_count :=
         if actual ≠ expected then (s.error_count + 1) % 2 ^ 32 else s.error_count,
       transaction_count := (s.transaction_count + 1) % 2 ^ 32 }, true)
  | _, _ => (s, false)

/-- Modelled from the spec: checkData (evaluate in the specification), given
the response observed in this cycle on each protocol, if any.  Both protocols
are checked; the result is non-zero when at least one check fired. -/
def Scb.checkData (s : Scb) (rsp : Protocol → Option Nat) : Scb × Int :=
  let r1 := s.checkProtocol Protocol.obi (rsp Protocol.obi)
  let r2 := r1.1.checkProtocol Protocol.reg (rsp Protocol.reg)
  (r2.1, if r1.2 || r2.2 then 1 else 0)

/-- Modelled from the spec: notifyError force-increments error_count. -/
def Scb.notifyError (s : Scb) : Scb :=
  { s with error_count := (s.error_count + 1) % 2 ^ 32 }

/-- Modelled from the spec: isDone holds when every scheduled expectation has
been matched. -/
def Scb.isDone (s : Scb) : Bool :=
  (s.pending Protocol.obi).isEmpty && (s.pending Protocol.reg).isEmpty

/-- No check ever fires, the model never finishes, nothing is accepted. -/
def quietEnv : Env Script :=
  scriptEnv (fun _ => 0) (fun _ => false) (fun _ => false)

/-- The first check fires in the third active cycle. -/
def earlyCheckEnv : Env Script :=
  scriptEnv (fun n => if n = 2 then 1 else 0) (fun _ => false) (fun _ => false)

/-- The first check fires in the 91st active cycle. -/
def lateCheckEnv : Env Script :=
  scriptEnv (fun n => if n = 90 then 1 else 0) (fun _ => false) (fun _ => false)

/-- Scripted components whose scoreboard also counts an error whenever a check
fires: the n-th checkData call returns fire n and, when that is non-zero,
increments the 32-bit error count. -/
def countingEnv (fire : Nat → Int) (fin acc : Nat → Bool) : Env Script :=
  { scriptEnv fire fin acc with
    checkData := fun e =>
      ({ checks := e.checks + 1,
         errs := if fire e.checks ≠ 0 then (e.errs + 1) % 2 ^ 32 else e.errs },
       fire e.checks) }

/-- The first check fires in the 91st active cycle and finds a mismatch. -/
def lateMismatchEnv : Env Script :=
  countingEnv (fun n => if n = 90 then 1 else 0) (fun _ => false) (fun _ => false)

/-- The state of main at time t with the clock port low, nothing pending. -/
def stateAt (e0 : ε) (t : Nat) : TbState ε :=
  { initState e0 0 1 with time := t }
/-! ## The transaction generators (lines 291-349) -/

/-- genObiWriteReqTx, lines 292-304.  The first argument is the object
returned by new, whose contents are not initialised; the other three are the
parameters addr_offs, wdata and be. -/
def genObiWriteReqTx (fresh : ObiReqTx) (addr_offs wdata be : Nat) : ObiReqTx :=
  let req := fresh
  let req := { req with obi_req := { req.obi_req with req := 1 } }
  let req := { req with obi_req := { req.obi_req with we := 1 } }
  let req := { req with obi_req := { req.obi_req with be := be } }
  let req := { req with obi_req := { req.obi_req with addr := addr_offs } }
  let req := { req with obi_req := { req.obi_req with wdata := wdata } }
  req

/-- genObiReadReqTx, lines 307-319. -/
def genObiReadReqTx (fresh : ObiReqTx) (addr_offs : Nat) : ObiReqTx :=
  let req := fresh
  let req := { req with obi_req := { req.obi_req with req := 1 } }
  let req := { req with obi_req := { req.obi_req with we := 0 } }
  let req := { req with obi_req := { req.obi_req with be := 0xf } }
  let req := { req with obi_req := { req.obi_req with addr := addr_offs } }
  let req := { req with obi_req := { req.obi_req with wdata := 0 } }
  req

/-- genRegWriteReqTx, lines 322-334. -/
def genRegWriteReqTx (fresh : RegReqTx) (addr_offs wdata wstrb : Nat) : RegReqTx :=
  let req := fresh
  let req := { req with reg_req := { req.reg_req with valid := 1 } }
  let req := { req with reg_req := { req.reg_req with write := 1 } }
  let req := { req with reg_req := { req.reg_req with wstrb := wstrb } }
  let req := { req with reg_req := { req.reg_req with addr := addr_offs } }
  let req := { req with reg_req := { req.reg_req with wdata := wdata } }
  req

/-- genRegReadReqTx, lines 337-349. -/
def genRegReadReqTx (fresh : RegReqTx) (addr_offs : Nat) : RegReqTx :=
  let req := fresh
  let req := { req with reg_req := { req.reg_req with valid := 1 } }
  let req := { req with reg_req := { req.reg_req with write := 0 } }
  let req := { req with reg_req := { req.reg_req with wstrb := 0xf } }
  let req := { req with reg_req := { req.reg_req with addr := addr_offs } }
  let req := { req with reg_req := { req.reg_req with wdata := 0 } }
  req

/-! ## runCycles (lines 271-289) -/

/-- The body of the for loop of runCycles, lines 276-287: clock, evaluation of
the model, then the dump, the cycle count and the time increment, which are
the statements of lines 224-226 again. -/
def runCyclesStep (E : Env ε) (gen_waves : Bool) (s : TbState ε) : TbState ε :=
  let s := { s with clk_i := clkGen s.clk_i, log := Event.clkGen :: s.log }
  let s := { s with env := E.eval s.env s.clk_i s.rst_ni, log := Event.eval :: s.log }
  advanceStep gen_waves s

/-- The for loop of line 274 from the value i of its counter, against the
bound 2 * ncycles computed in unsigned int; none when the fuel runs out. -/
def runCyclesLoop (E : Env ε) (gen_waves : Bool) (bound : Nat) :
    Nat → Nat → TbState ε → Option (TbState ε)
  | 0, _, _ => none
  | fuel + 1, i, s =>
    if i < bound then
      runCyclesLoop E gen_waves bound fuel ((i + 1) % 2 ^ 32) (runCyclesStep E gen_waves s)
    else some s

/-- runCycles, lines 271-289, with enough fuel for the loop. -/
def runCycles (E : Env ε) (ncycles : Nat) (gen_waves : Bool) (s : TbState ε) :
    Option (TbState ε) :=
  runCyclesLoop E gen_waves ((2 * ncycles) % 2 ^ 32) ((2 * ncycles) % 2 ^ 32 + 1) 0 s

/-! ## The states of a run -/

/-- The state in which the condition of line 161 is evaluated for the n-th
time (from 0) in the run from s, if the loop is not left before. -/
def loopHead (E : Env ε) (gen_waves : Bool) : Nat → TbState ε → Option (TbState ε)
  | 0, s => some s
  | n + 1, s =>
    if E.gotFinish s.env then none
    else if ¬ s.time < MAX_SIM_TIME then none
    else
      match tick E gen_waves s with
      | (_, some _) => none
      | (s, none) => loopHead E gen_waves n s

/-- The scoreboard and the model stay idle, but every request is reported as
accepted in every cycle. -/
def acceptingEnv : Env Script :=
  scriptEnv (fun _ => 0) (fun _ => false) (fun _ => true)

/-- The program gives no stimulus: the four request pointers are NULL, no
schedule call has been made and every drive call was made with both slots
empty. -/
def NoStimulus (s : TbState ε) : Prop :=
  s.obi_req = none ∧ s.reg_req = none ∧ s.obi_check_req = none ∧ s.reg_check_req = none ∧
  (∀ ev ∈ s.log, ev.isSchedule = false) ∧
  (∀ a b, Event.drive a b ∈ s.log → a = none ∧ b = none)
/-! # Theorems -/

/-! ## The stages of the block -/

theorem clockStep_ctl (E : Env ε) (s : TbState ε) :
    (clockStep E s).ctl =
      { s.ctl with rst_ni := rstDut s.rst_ni s.time, clk_i := clkGen s.clk_i } := rfl

theorem clockStep_log (E : Env ε) (s : TbState ε) :
    (clockStep E s).log = Event.eval :: Event.clkGen :: Event.rstDut s.time :: s.log := rfl

theorem driveStep_ctl (E : Env ε) (s : TbState ε) :
    (driveStep E s).ctl = { s.ctl with obi_req := none, reg_req := none } := rfl

theorem driveStep_log (E : Env ε) (s : TbState ε) :
    (driveStep E s).log = Event.eval :: Event.drive s.obi_req s.reg_req :: s.log := rfl

theorem monitorStep_ctl (E : Env ε) (s : TbState ε) : (monitorStep E s).ctl = s.ctl := rfl

theorem monitorStep_log (E : Env ε) (s : TbState ε) :
    (monitorStep E s).log = Event.rspMonitor :: Event.reqMonitor :: s.log := rfl

theorem scheduleReg_ctl (E : Env ε) (s : TbState ε) : (scheduleReg E s).ctl = s.ctl := by
  simp only [scheduleReg]
  split_ifs <;> rfl

theorem scheduleReg_obi_accepted (E : Env ε) (s : TbState ε) :
    (scheduleReg E s).obi_accepted = s.obi_accepted := by
  simp only [scheduleReg]
  split_ifs <;> rfl

theorem scheduleReg_log (E : Env ε) (s : TbState ε) :
    (scheduleReg E s).log =
      (if s.reg_accepted = true ∧ s.reg_check_req.isSome = true
        then [Event.scheduleRegCheck s.reg_check_data] else []) ++ s.log := by
  simp only [scheduleReg]
  split_ifs <;> simp_all

theorem scheduleObi_ctl (E : Env ε) (s : TbState ε) : (scheduleObi E s).ctl = s.ctl := by
  simp only [scheduleObi]
  split_ifs <;> rfl

theorem scheduleObi_log (E : Env ε) (s : TbState ε) :
    (scheduleObi E s).log =
      (if s.obi_accepted = true ∧ s.obi_check_req.isSome = true
        then [Event.scheduleObiCheck s.obi_check_data] else []) ++ s.log := by
  simp only [scheduleObi]
  split_ifs <;> simp_all

theorem scheduled_ctl (E : Env ε) (s : TbState ε) :
    (scheduled E s).ctl = { s.ctl with obi_req := none, reg_req := none } := by
  unfold scheduled
  rw [scheduleObi_ctl, scheduleReg_ctl, monitorStep_ctl, driveStep_ctl]

theorem scheduled_log (E : Env ε) (s : TbState ε) :
    (scheduled E s).log =
      scheduleCalls E s ++ (Event.rspMonitor :: Event.reqMonitor :: Event.eval ::
        Event.drive s.obi_req s.reg_req :: s.log) := by
  have h1 : (scheduleReg E (monitorStep E (driveStep E s))).obi_check_req = s.obi_check_req :=
    congrArg Ctl.obi_check_req
      ((scheduleReg_ctl E _).trans ((monitorStep_ctl E _).trans (driveStep_ctl E s)))
  have h2 : (scheduleReg E (monitorStep E (driveStep E s))).obi_check_data = s.obi_check_data :=
    congrArg Ctl.obi_check_data
      ((scheduleReg_ctl E _).trans ((monitorStep_ctl E _).trans (driveStep_ctl E s)))
  unfold scheduled scheduleCalls
  rw [scheduleObi_log, scheduleReg_log, scheduleReg_obi_accepted, h1, h2, List.append_assoc]
  rfl

theorem checkStep_ctl (E : Env ε) (s : TbState ε) :
    (checkStep E s).ctl =
      { s.ctl with end_of_test := s.end_of_test || decide ((E.checkData s.env).2 ≠ 0) } := by
  simp only [checkStep]
  split_ifs with h <;> simp [TbState.ctl, h]

theorem checkStep_log (E : Env ε) (s : TbState ε) :
    (checkStep E s).log = Event.checkData (E.checkData s.env).2 :: s.log := by
  simp only [checkStep]
  split_ifs <;> rfl

theorem watchdogUpdate_ctl (s : TbState ε) :
    (watchdogUpdate s).ctl =
      { s.ctl with watchdog :=
          if s.prev_step_cnt ≠ s.step_cnt then 0 else (s.watchdog + 1) % 2 ^ 32 } := by
  simp only [watchdogUpdate]
  split_ifs with h <;> simp [TbState.ctl, h]

theorem watchdogUpdate_log (s : TbState ε) : (watchdogUpdate s).log = s.log := by
  simp only [watchdogUpdate]
  split_ifs <;> rfl

theorem watchdogUpdate_env (s : TbState ε) : (watchdogUpdate s).env = s.env := by
  simp only [watchdogUpdate]
  split_ifs <;> rfl

/-- The steering variables before line 208. -/
theorem preExit_ctl (E : Env ε) (s : TbState ε) :
    (preExit E s).ctl =
      { s.ctl with
        obi_req := none, reg_req := none,
        end_of_test := s.end_of_test || decide (checkResult E s ≠ 0),
        watchdog := if s.prev_step_cnt ≠ s.step_cnt then 0 else (s.watchdog + 1) % 2 ^ 32 } := by
  have h := scheduled_ctl E s
  unfold preExit
  rw [watchdogUpdate_ctl, checkStep_ctl]
  have e1 : (checkStep E (scheduled E s)).prev_step_cnt = s.prev_step_cnt :=
    (congrArg Ctl.prev_step_cnt (checkStep_ctl E _)).trans (congrArg Ctl.prev_step_cnt h)
  have e2 : (checkStep E (scheduled E s)).step_cnt = s.step_cnt :=
    (congrArg Ctl.step_cnt (checkStep_ctl E _)).trans (congrArg Ctl.step_cnt h)
  have e3 : (checkStep E (scheduled E s)).watchdog = s.watchdog :=
    (congrArg Ctl.watchdog (checkStep_ctl E _)).trans (congrArg Ctl.watchdog h)
  have e4 : (scheduled E s).end_of_test = s.end_of_test := congrArg Ctl.end_of_test h
  rw [e1, e2, e3, e4, h]
  rfl

/-- The calls made before line 208, newest first. -/
theorem preExit_log (E : Env ε) (s : TbState ε) :
    (preExit E s).log =
      Event.checkData (checkResult E s) :: (scheduleCalls E s ++
        (Event.rspMonitor :: Event.reqMonitor :: Event.eval ::
          Event.drive s.obi_req s.reg_req :: s.log)) := by
  unfold preExit
  rw [watchdogUpdate_log, checkStep_log, scheduled_log]
  rfl

theorem activeBlock_eq (E : Env ε) (s : TbState ε) :
    activeBlock E s = exitStep E (preExit E s) := rfl
theorem advanceStep_ctl (gw : Bool) (s : TbState ε) :
    (advanceStep gw s).ctl = { s.ctl with time := (s.ctl.time + 1) % 2 ^ 64 } := by
  simp only [advanceStep]
  split_ifs <;> rfl

theorem advanceStep_log (gw : Bool) (s : TbState ε) :
    (advanceStep gw s).log =
      Event.timeInc :: ((if gw = true then [Event.dump s.time] else []) ++ s.log) := by
  simp only [advanceStep]
  split_ifs <;> rfl

theorem advanceStep_env (gw : Bool) (s : TbState ε) : (advanceStep gw s).env = s.env := by
  simp only [advanceStep]
  split_ifs <;> rfl

/-! ## Reading the log: lemmas -/

theorem activeCycles_cons (ev : Event) (l : List Event) :
    activeCycles (ev :: l) = activeCycles l + (if ev.isDrive = true then 1 else 0) := by
  simp [activeCycles, List.countP_cons]

theorem notifyCount_cons (ev : Event) (l : List Event) :
    notifyCount (ev :: l) = notifyCount l + (if ev.isNotify = true then 1 else 0) := by
  simp [notifyCount, List.countP_cons]

theorem firstFire_check (r : Int) (l : List Event) :
    firstFire (Event.checkData r :: l) =
      match firstFire l with
      | some k => some k
      | none => if r ≠ 0 then some (activeCycles l) else none := rfl

theorem quiet_cons (ev : Event) (h : ev.isQuiet = true) (l : List Event) :
    activeCycles (ev :: l) = activeCycles l ∧ notifyCount (ev :: l) = notifyCount l ∧
      firstFire (ev :: l) = firstFire l := by
  cases ev <;> simp [Event.isQuiet] at h <;>
    simp [activeCycles_cons, notifyCount_cons, Event.isDrive, Event.isNotify, firstFire] <;>
    cases firstFire l <;> rfl

theorem quiet_append (evs : List Event) (h : ∀ ev ∈ evs, ev.isQuiet = true) (l : List Event) :
    activeCycles (evs ++ l) = activeCycles l ∧ notifyCount (evs ++ l) = notifyCount l ∧
      firstFire (evs ++ l) = firstFire l := by
  induction evs with
  | nil => simp
  | cons ev evs ih =>
    have h1 := quiet_cons ev (h ev (List.mem_cons_self _ _)) (evs ++ l)
    have h2 := ih (fun x hx => h x (List.mem_cons_of_mem _ hx))
    simp only [List.cons_append]
    exact ⟨h1.1.trans h2.1, h1.2.1.trans h2.2.1, h1.2.2.trans h2.2.2⟩

theorem scheduleCalls_quiet (E : Env ε) (s : TbState ε) :
    ∀ ev ∈ scheduleCalls E s, ev.isQuiet = true := by
  intro ev hev
  simp only [scheduleCalls] at hev
  rcases List.mem_append.mp hev with h | h <;> split_ifs at h <;> simp at h <;>
    subst h <;> rfl

theorem dumpCalls_quiet (gw : Bool) (t : Nat) :
    ∀ ev ∈ (if gw = true then [Event.dump t] else []), ev.isQuiet = true := by
  intro ev hev
  split_ifs at hev <;> simp at hev
  subst hev
  rfl
/-! ## One iteration of the loop, by cases -/

/-- The five ways through one iteration: no block; block left by the watchdog
break; block left by the end-of-simulation break; block completed during the
grace period; block completed before any check fired. -/
theorem tick_cases (E : Env ε) (gw : Bool) (s : TbState ε) :
    (isActive (clockStep E s) = false ∧
      tick E gw s = (advanceStep gw (clockStep E s), none)) ∨
    (isActive (clockStep E s) = true ∧
      (preExit E (clockStep E s)).watchdog > WATCHDOG_TIMEOUT ∧
      tick E gw s =
        ({ preExit E (clockStep E s) with
            env := E.notifyError (preExit E (clockStep E s)).env,
            log := Event.notifyError :: Event.watchdogWarn ::
              (preExit E (clockStep E s)).log },
         some LoopExit.watchdog)) ∨
    (isActive (clockStep E s) = true ∧
      ¬ (preExit E (clockStep E s)).watchdog > WATCHDOG_TIMEOUT ∧
      (preExit E (clockStep E s)).end_of_test = true ∧
      (preExit E (clockStep E s)).exit_timer = END_OF_TEST_TIMEOUT ∧
      tick E gw s =
        ({ preExit E (clockStep E s) with
            prev_step_cnt := (preExit E (clockStep E s)).step_cnt,
            exit_timer := ((preExit E (clockStep E s)).exit_timer + 1) % 2 ^ 32,
            log := Event.endOfSimLog :: (preExit E (clockStep E s)).log },
         some LoopExit.endOfSim)) ∨
    (isActive (clockStep E s) = true ∧
      ¬ (preExit E (clockStep E s)).watchdog > WATCHDOG_TIMEOUT ∧
      (preExit E (clockStep E s)).end_of_test = true ∧
      (preExit E (clockStep E s)).exit_timer ≠ END_OF_TEST_TIMEOUT ∧
      tick E gw s =
        (advanceStep gw { preExit E (clockStep E s) with
            prev_step_cnt := (preExit E (clockStep E s)).step_cnt,
            exit_timer := ((preExit E (clockStep E s)).exit_timer + 1) % 2 ^ 32 },
         none)) ∨
    (isActive (clockStep E s) = true ∧
      ¬ (preExit E (clockStep E s)).watchdog > WATCHDOG_TIMEOUT ∧
      (preExit E (clockStep E s)).end_of_test = false ∧
      tick E gw s =
        (advanceStep gw { preExit E (clockStep E s) with
            prev_step_cnt := (preExit E (clockStep E s)).step_cnt },
         none)) := by
  by_cases hact : isActive (clockStep E s) = true
  · simp only [tick, hact, if_true, activeBlock_eq, exitStep]
    by_cases h1 : (preExit E (clockStep E s)).watchdog > WATCHDOG_TIMEOUT
    · simp [h1]
    · by_cases h2 : (preExit E (clockStep E s)).end_of_test = true
      · by_cases h3 : (preExit E (clockStep E s)).exit_timer = END_OF_TEST_TIMEOUT
        · simp [h1, h2, h3]
        · simp [h1, h2, h3]
      · simp [h1, h2]
  · simp only [tick, hact]
    simp at hact
    simp [hact]
theorem clkGen_zero : clkGen 0 = 1 := rfl

theorem clkGen_one : clkGen 1 = 0 := rfl

/-- The measures of the log after the calls of a block up to checkData. -/
theorem block_log_measures (r : Int) (sched : List Event)
    (hq : ∀ ev ∈ sched, ev.isQuiet = true) (a : Option ObiReqTx) (b : Option RegReqTx)
    (t : Nat) (l : List Event) :
    activeCycles (Event.checkData r :: (sched ++ (Event.rspMonitor :: Event.reqMonitor ::
        Event.eval :: Event.drive a b :: Event.eval :: Event.clkGen ::
        Event.rstDut t :: l))) = activeCycles l + 1 ∧
    notifyCount (Event.checkData r :: (sched ++ (Event.rspMonitor :: Event.reqMonitor ::
        Event.eval :: Event.drive a b :: Event.eval :: Event.clkGen ::
        Event.rstDut t :: l))) = notifyCount l ∧
    firstFire (Event.checkData r :: (sched ++ (Event.rspMonitor :: Event.reqMonitor ::
        Event.eval :: Event.drive a b :: Event.eval :: Event.clkGen ::
        Event.rstDut t :: l))) =
      (match firstFire l with
        | some k => some k
        | none => if r ≠ 0 then some (activeCycles l + 1) else none) := by
  obtain ⟨q1, q2, q3⟩ := quiet_append sched hq (Event.rspMonitor :: Event.reqMonitor ::
        Event.eval :: Event.drive a b :: Event.eval :: Event.clkGen :: Event.rstDut t :: l)
  have d1 : activeCycles (Event.rspMonitor :: Event.reqMonitor ::
        Event.eval :: Event.drive a b :: Event.eval :: Event.clkGen :: Event.rstDut t :: l)
        = activeCycles l + 1 := by
    simp [activeCycles_cons, Event.isDrive]
  have d2 : notifyCount (Event.rspMonitor :: Event.reqMonitor ::
        Event.eval :: Event.drive a b :: Event.eval :: Event.clkGen :: Event.rstDut t :: l)
        = notifyCount l := by
    simp [notifyCount_cons, Event.isNotify]
  have d3 : firstFire (Event.rspMonitor :: Event.reqMonitor ::
        Event.eval :: Event.drive a b :: Event.eval :: Event.clkGen :: Event.rstDut t :: l)
        = firstFire l := by
    simp only [firstFire]
    cases firstFire l <;> rfl
  refine ⟨?_, ?_, ?_⟩
  · rw [activeCycles_cons, q1, d1]; simp [Event.isDrive]
  · rw [notifyCount_cons, q2, d2]; simp [Event.isNotify]
  · rw [firstFire_check, q3, d3, q1, d1]

/-- The state before line 208 in an active cycle entered under the invariant. -/
theorem preExit_facts (E : Env ε) {s : TbState ε} (hI : LoopInv s)
    (hact : isActive (clockStep E s) = true) :
    (preExit E (clockStep E s)).clk_i = 1 ∧
    (preExit E (clockStep E s)).time = s.time ∧
    5 < s.time ∧
    (preExit E (clockStep E s)).step_cnt = 0 ∧
    (preExit E (clockStep E s)).prev_step_cnt = 0 ∧
    (preExit E (clockStep E s)).watchdog = s.watchdog + 1 ∧
    s.time ≤ 2 * s.watchdog + 7 ∧
    s.watchdog ≤ WATCHDOG_TIMEOUT ∧
    activeCycles (preExit E (clockStep E s)).log = s.watchdog + 1 ∧
    notifyCount (preExit E (clockStep E s)).log = 0 ∧
    (preExit E (clockStep E s)).obi_req = none ∧
    (preExit E (clockStep E s)).reg_req = none ∧
    (preExit E (clockStep E s)).obi_check_req = none ∧
    (preExit E (clockStep E s)).reg_check_req = none ∧
    (preExit E (clockStep E s)).end_of_test = (firstFire (preExit E (clockStep E s)).log).isSome ∧
    (preExit E (clockStep E s)).exit_timer = s.exit_timer ∧
    firstFire (preExit E (clockStep E s)).log =
      (match firstFire s.log with
        | some k => some k
        | none => if checkResult E (clockStep E s) ≠ 0 then some (s.watchdog + 1) else none) := by
  have hc := preExit_ctl E (clockStep E s)
  have hl := preExit_log E (clockStep E s)
  rw [clockStep_log] at hl
  obtain ⟨m1, m2, m3⟩ := block_log_measures (checkResult E (clockStep E s))
    (scheduleCalls E (clockStep E s)) (scheduleCalls_quiet E _)
    (clockStep E s).obi_req (clockStep E s).reg_req s.time s.log
  rw [← hl] at m1 m2 m3
  obtain ⟨i1, i2, i3, i4, i5, i6, i7, i8, i9, i10, i11, i12, i13⟩ := hI
  simp only [TbState.ctl] at i1 i2 i3 i4 i5 i6 i7 i8 i9 i10 i11 i12 i13
  simp only [isActive, decide_eq_true_eq] at hact
  have hclk : (clockStep E s).clk_i = clkGen s.clk_i := rfl
  have htime : (clockStep E s).time = s.time := rfl
  rw [hclk, htime] at hact
  have hs0 : s.clk_i = 0 := by
    rcases Nat.le_one_iff_eq_zero_or_eq_one.mp i1 with h | h
    · exact h
    · rw [h, clkGen_one] at hact; omega
  have e_clk : (preExit E (clockStep E s)).clk_i = clkGen s.clk_i := congrArg Ctl.clk_i hc
  have e_time : (preExit E (clockStep E s)).time = s.time := congrArg Ctl.time hc
  have e_step : (preExit E (clockStep E s)).step_cnt = s.step_cnt := congrArg Ctl.step_cnt hc
  have e_prev : (preExit E (clockStep E s)).prev_step_cnt = s.prev_step_cnt :=
    congrArg Ctl.prev_step_cnt hc
  have e_wd : (preExit E (clockStep E s)).watchdog =
      if s.prev_step_cnt ≠ s.step_cnt then 0 else (s.watchdog + 1) % 2 ^ 32 :=
    congrArg Ctl.watchdog hc
  have e_eot : (preExit E (clockStep E s)).end_of_test =
      (s.end_of_test || decide (checkResult E (clockStep E s) ≠ 0)) :=
    congrArg Ctl.end_of_test hc
  have e_timer : (preExit E (clockStep E s)).exit_timer = s.exit_timer :=
    congrArg Ctl.exit_timer hc
  have e_p1 : (preExit E (clockStep E s)).obi_req = none := congrArg Ctl.obi_req hc
  have e_p2 : (preExit E (clockStep E s)).reg_req = none := congrArg Ctl.reg_req hc
  have e_p3 : (preExit E (clockStep E s)).obi_check_req = s.obi_check_req :=
    congrArg Ctl.obi_check_req hc
  have e_p4 : (preExit E (clockStep E s)).reg_check_req = s.reg_check_req :=
    congrArg Ctl.reg_check_req hc
  have hw : (s.watchdog + 1) % 2 ^ 32 = s.watchdog + 1 :=
    Nat.mod_eq_of_lt (by simp only [WATCHDOG_TIMEOUT] at i5; omega)
  rw [i2, i3] at e_wd
  simp only [ne_eq, not_true_eq_false, if_false, hw] at e_wd
  rw [← i4] at m1 m3
  refine ⟨by rw [e_clk]; exact hact.1, e_time, hact.2, by rw [e_step, i2], by rw [e_prev, i3],
    e_wd, ?_, i5, m1, by rw [m2, i6], e_p1, e_p2, by rw [e_p3, i10], by rw [e_p4, i11], ?_,
    e_timer, m3⟩
  · simp [hs0] at i7; omega
  · rw [e_eot, m3, i12]
    cases firstFire s.log with
    | some k => simp
    | none =>
      by_cases hr : checkResult E (clockStep E s) = 0
      · simp [hr]
      · simp [hr]
/-- The invariant reads the log through its three measures only. -/
theorem CtlInv.congr_log {c : Ctl} {l l2 : List Event} (h : CtlInv c l)
    (h1 : activeCycles l2 = activeCycles l) (h2 : notifyCount l2 = notifyCount l)
    (h3 : firstFire l2 = firstFire l) : CtlInv c l2 := by
  obtain ⟨i1, i2, i3, i4, i5, i6, i7, i8, i9, i10, i11, i12, i13⟩ := h
  exact ⟨i1, i2, i3, by rw [h1]; exact i4, i5, by rw [h2]; exact i6, i7, i8, i9, i10, i11,
    by rw [h3]; exact i12, by rw [h3]; exact i13⟩

/-- Lines 224-226 keep the invariant when it holds with the time advanced. -/
theorem advance_inv (gw : Bool) (q : TbState ε)
    (h : CtlInv { q.ctl with time := (q.ctl.time + 1) % 2 ^ 64 } q.log) :
    LoopInv (advanceStep gw q) := by
  unfold LoopInv
  rw [advanceStep_ctl, advanceStep_log]
  obtain ⟨q1, q2, q3⟩ := quiet_append _ (dumpCalls_quiet gw q.time) q.log
  obtain ⟨r1, r2, r3⟩ := quiet_cons Event.timeInc rfl
    ((if gw = true then [Event.dump q.time] else []) ++ q.log)
  exact h.congr_log (r1.trans q1) (r2.trans q2) (r3.trans q3)

theorem advanceStep_time (gw : Bool) (q : TbState ε) :
    (advanceStep gw q).time = (q.time + 1) % 2 ^ 64 :=
  congrArg Ctl.time (advanceStep_ctl gw q)

/-- One iteration under the invariant: either the loop goes on, the invariant
holds again and the time has advanced by one, or the loop is left by a break
with the facts recorded in LoopPost. -/
theorem tick_step (E : Env ε) (gw : Bool) {s : TbState ε} (hI : LoopInv s)
    (ht : s.time < MAX_SIM_TIME) :
    ((tick E gw s).2 = none → LoopInv (tick E gw s).1 ∧ (tick E gw s).1.time = s.time + 1) ∧
    (∀ x, (tick E gw s).2 = some x → LoopPost E ((tick E gw s).1, x)) := by
  have hmod : (s.time + 1) % 2 ^ 64 = s.time + 1 :=
    Nat.mod_eq_of_lt (by simp only [MAX_SIM_TIME, MAX_SIM_CYCLES] at ht; omega)
  rcases tick_cases E gw s with ⟨hact, hk⟩ | ⟨hact, h1, hk⟩ | ⟨hact, h1, h2, h3, hk⟩ |
    ⟨hact, h1, h2, h3, hk⟩ | ⟨hact, h1, h2, hk⟩
  · -- no block in this iteration
    rw [hk]
    refine ⟨fun _ => ⟨?_, ?_⟩, fun x hx => by simp at hx⟩
    · apply advance_inv
      obtain ⟨i1, i2, i3, i4, i5, i6, i7, i8, i9, i10, i11, i12, i13⟩ := hI
      simp only [TbState.ctl] at i1 i2 i3 i4 i5 i6 i7 i8 i9 i10 i11 i12 i13
      simp only [isActive, decide_eq_false_iff_not] at hact
      have hclk : (clockStep E s).clk_i = clkGen s.clk_i := rfl
      have htime : (clockStep E s).time = s.time := rfl
      rw [hclk, htime] at hact
      have hq : ∀ ev ∈ [Event.eval, Event.clkGen, Event.rstDut s.time], ev.isQuiet = true := by
        intro ev hev
        simp at hev
        rcases hev with h | h | h <;> subst h <;> rfl
      obtain ⟨q1, q2, q3⟩ := quiet_append _ hq s.log
      have hl : (clockStep E s).log = [Event.eval, Event.clkGen, Event.rstDut s.time] ++ s.log :=
        rfl
      rw [hl]
      refine CtlInv.congr_log ?_ q1 q2 q3
      rcases Nat.le_one_iff_eq_zero_or_eq_one.mp i1 with h | h
      · have hc1 : clkGen s.clk_i = 1 := by rw [h]; rfl
        refine ⟨?_, i2, i3, i4, i5, i6, ?_, i8, i9, i10, i11, i12, i13⟩
        · show clkGen s.clk_i ≤ 1
          omega
        · show (s.time + 1) % 2 ^ 64 ≤ 6 + 2 * s.watchdog + (if clkGen s.clk_i = 1 then 0 else 1)
          rw [hmod, hc1]
          simp only [hc1, true_and] at hact
          simp only [END_OF_RESET_TIME] at hact
          simp
          omega
      · have hc0 : clkGen s.clk_i = 0 := by rw [h]; rfl
        refine ⟨?_, i2, i3, i4, i5, i6, ?_, i8, i9, i10, i11, i12, i13⟩
        · show clkGen s.clk_i ≤ 1
          omega
        · show (s.time + 1) % 2 ^ 64 ≤ 6 + 2 * s.watchdog + (if clkGen s.clk_i = 1 then 0 else 1)
          rw [hmod, hc0]
          simp [h] at i7
          simp
          omega
    · show (advanceStep gw (clockStep E s)).time = s.time + 1
      rw [advanceStep_time]
      exact hmod
  · -- the watchdog break
    obtain ⟨f1, f2, f3, f4, f5, f6, f7, f8, f9, f10, f11, f12, f13, f14, f15, f16, f17⟩ :=
      preExit_facts E hI hact
    rw [hk]
    refine ⟨fun h => by simp at h, fun x hx => ?_⟩
    simp only [Option.some.injEq] at hx
    subst hx
    simp only [LoopPost]
    refine ⟨?_, ?_, ?_, ?_, ⟨_, rfl⟩⟩
    · rw [activeCycles_cons, activeCycles_cons, f9]
      simp only [WATCHDOG_TIMEOUT] at h1 f8 ⊢
      simp [Event.isDrive]
      omega
    · rw [notifyCount_cons, notifyCount_cons, f10]
      simp [Event.isNotify]
    · show (preExit E (clockStep E s)).time ≤ 2 * WATCHDOG_TIMEOUT + 7
      rw [f2]
      simp only [WATCHDOG_TIMEOUT] at h1 f8 ⊢
      omega
    · intro k hk2
      have e1 := (quiet_cons Event.watchdogWarn rfl (preExit E (clockStep E s)).log).2.2
      have e2 : firstFire (Event.notifyError :: Event.watchdogWarn ::
          (preExit E (clockStep E s)).log) = firstFire (Event.watchdogWarn ::
          (preExit E (clockStep E s)).log) := by
        simp only [firstFire]
        cases firstFire (preExit E (clockStep E s)).log <;> rfl
      have hk3 : firstFire (preExit E (clockStep E s)).log = some k := by
        rw [← e1, ← e2]; exact hk2
      rw [f17] at hk3
      have i13 := hI.timer
      simp only [TbState.ctl] at i13
      simp only [WATCHDOG_TIMEOUT, END_OF_TEST_TIMEOUT] at h1 f8 i13 ⊢
      cases hff : firstFire s.log with
      | some k2 =>
        rw [hff] at hk3 i13
        simp at hk3 i13
        omega
      | none =>
        rw [hff] at hk3
        simp at hk3
        omega
  · -- the end-of-simulation break
    obtain ⟨f1, f2, f3, f4, f5, f6, f7, f8, f9, f10, f11, f12, f13, f14, f15, f16, f17⟩ :=
      preExit_facts E hI hact
    rw [hk]
    refine ⟨fun h => by simp at h, fun x hx => ?_⟩
    simp only [Option.some.injEq] at hx
    subst hx
    simp only [LoopPost]
    have e1 := quiet_cons Event.endOfSimLog rfl (preExit E (clockStep E s)).log
    rw [e1.1, e1.2.1, e1.2.2, f9, f10, f17]
    have i13 := hI.timer
    simp only [TbState.ctl] at i13
    rw [f15, f17] at h2
    rw [f16] at h3
    simp only [WATCHDOG_TIMEOUT, END_OF_TEST_TIMEOUT] at h1 f8 i13 h3 ⊢
    cases hff : firstFire s.log with
    | some k2 =>
      rw [hff] at i13
      simp at i13
      refine ⟨k2, rfl, ?_, ?_, trivial⟩ <;> omega
    | none =>
      rw [hff] at i13
      simp at i13
      omega
  · -- the block completes during the grace period
    obtain ⟨f1, f2, f3, f4, f5, f6, f7, f8, f9, f10, f11, f12, f13, f14, f15, f16, f17⟩ :=
      preExit_facts E hI hact
    rw [hk]
    refine ⟨fun _ => ⟨?_, ?_⟩, fun x hx => by simp at hx⟩
    · apply advance_inv
      have i13 := hI.timer
      simp only [TbState.ctl] at i13
      simp only [WATCHDOG_TIMEOUT, END_OF_TEST_TIMEOUT] at h1 f8 i13 h3 ⊢
      have hmodt : ((preExit E (clockStep E s)).exit_timer + 1) % 2 ^ 32 =
          (preExit E (clockStep E s)).exit_timer + 1 := by
        apply Nat.mod_eq_of_lt
        rw [f16]
        cases hff : firstFire s.log with
        | some k2 => rw [hff] at i13; simp at i13; omega
        | none => rw [hff] at i13; simp at i13; omega
      refine ⟨?_, f4, f4, ?_, ?_, f10, ?_, f11, f12, f13, f14, f15, ?_⟩
      · show (preExit E (clockStep E s)).clk_i ≤ 1
        omega
      · show (preExit E (clockStep E s)).watchdog = _
        rw [f9, f6]
      · show (preExit E (clockStep E s)).watchdog ≤ 100
        omega
      · show ((preExit E (clockStep E s)).time + 1) % 2 ^ 64 ≤
          6 + 2 * (preExit E (clockStep E s)).watchdog +
            (if (preExit E (clockStep E s)).clk_i = 1 then 0 else 1)
        rw [f2, hmod, f1, f6]
        simp
        omega
      · show (match firstFire (preExit E (clockStep E s)).log with
          | none => ((preExit E (clockStep E s)).exit_timer + 1) % 2 ^ 32 = 0
          | some k => k + ((preExit E (clockStep E s)).exit_timer + 1) % 2 ^ 32 =
              (preExit E (clockStep E s)).watchdog + 1 ∧
              1 ≤ ((preExit E (clockStep E s)).exit_timer + 1) % 2 ^ 32 ∧
              ((preExit E (clockStep E s)).exit_timer + 1) % 2 ^ 32 ≤ 10)
        rw [f15, f17] at h2
        rw [hmodt, f17, f6]
        rw [f16] at h3 ⊢
        cases hff : firstFire s.log with
        | some k2 =>
          rw [hff] at i13
          simp at i13
          simp
          omega
        | none =>
          rw [hff] at i13 h2
          simp at i13
          by_cases hr : checkResult E (clockStep E s) = 0
          · simp [hr] at h2
          · simp [hr]
            omega
    · show (advanceStep gw _).time = s.time + 1
      rw [advanceStep_time]
      show ((preExit E (clockStep E s)).time + 1) % 2 ^ 64 = s.time + 1
      rw [f2]
      exact hmod
  · -- the block completes, no check has fired
    obtain ⟨f1, f2, f3, f4, f5, f6, f7, f8, f9, f10, f11, f12, f13, f14, f15, f16, f17⟩ :=
      preExit_facts E hI hact
    rw [hk]
    refine ⟨fun _ => ⟨?_, ?_⟩, fun x hx => by simp at hx⟩
    · apply advance_inv
      have i13 := hI.timer
      simp only [TbState.ctl] at i13
      simp only [WATCHDOG_TIMEOUT, END_OF_TEST_TIMEOUT] at h1 f8 i13 ⊢
      refine ⟨?_, f4, f4, ?_, ?_, f10, ?_, f11, f12, f13, f14, f15, ?_⟩
      · show (preExit E (clockStep E s)).clk_i ≤ 1
        omega
      · show (preExit E (clockStep E s)).watchdog = _
        rw [f9, f6]
      · show (preExit E (clockStep E s)).watchdog ≤ 100
        omega
      · show ((preExit E (clockStep E s)).time + 1) % 2 ^ 64 ≤
          6 + 2 * (preExit E (clockStep E s)).watchdog +
            (if (preExit E (clockStep E s)).clk_i = 1 then 0 else 1)
        rw [f2, hmod, f1, f6]
        simp
        omega
      · show (match firstFire (preExit E (clockStep E s)).log with
          | none => (preExit E (clockStep E s)).exit_timer = 0
          | some k => k + (preExit E (clockStep E s)).exit_timer =
              (preExit E (clockStep E s)).watchdog + 1 ∧
              1 ≤ (preExit E (clockStep E s)).exit_timer ∧
              (preExit E (clockStep E s)).exit_timer ≤ 10)
        rw [f15] at h2
        cases hpf : firstFire (preExit E (clockStep E s)).log with
        | some k2 => rw [hpf] at h2; simp at h2
        | none =>
          rw [hpf] at f17
          simp only []
          rw [f16]
          cases hff : firstFire s.log with
          | some k2 => rw [hff] at f17; simp at f17
          | none => rw [hff] at i13; simpa using i13
    · show (advanceStep gw _).time = s.time + 1
      rw [advanceStep_time]
      show ((preExit E (clockStep E s)).time + 1) % 2 ^ 64 = s.time + 1
      rw [f2]
      exact hmod
/-! ## The loop -/

/-- The time after one iteration: advanced by one unless a break was taken. -/
theorem tick_time (E : Env ε) (gw : Bool) (s : TbState ε) :
    (tick E gw s).1.time = if (tick E gw s).2 = none then (s.time + 1) % 2 ^ 64 else s.time := by
  have hp : (preExit E (clockStep E s)).time = s.time :=
    congrArg Ctl.time (preExit_ctl E (clockStep E s))
  rcases tick_cases E gw s with ⟨_, hk⟩ | ⟨_, _, hk⟩ | ⟨_, _, _, _, hk⟩ |
    ⟨_, _, _, _, hk⟩ | ⟨_, _, _, hk⟩ <;> rw [hk]
  · rw [if_pos rfl, advanceStep_time]
    rfl
  · simpa using hp
  · simpa using hp
  · rw [if_pos rfl, advanceStep_time]
    exact congrArg (fun t => (t + 1) % 2 ^ 64) hp
  · rw [if_pos rfl, advanceStep_time]
    exact congrArg (fun t => (t + 1) % 2 ^ 64) hp

/-- The proof rule of the loop: P holds whenever the condition of line 161 is
evaluated, Q when the loop is left.  The fuel bound makes the conclusion cover
the termination of the loop. -/
theorem mainLoop_rule (E : Env ε) (gw : Bool) (P : TbState ε → Prop)
    (Q : TbState ε × LoopExit → Prop)
    (hfin : ∀ s, P s → E.gotFinish s.env = true → Q (s, LoopExit.finish))
    (hceil : ∀ s, P s → E.gotFinish s.env = false → ¬ s.time < MAX_SIM_TIME →
      Q (s, LoopExit.ceiling))
    (hnext : ∀ s, P s → E.gotFinish s.env = false → s.time < MAX_SIM_TIME →
      (tick E gw s).2 = none → P (tick E gw s).1)
    (hbrk : ∀ s x, P s → E.gotFinish s.env = false → s.time < MAX_SIM_TIME →
      (tick E gw s).2 = some x → Q ((tick E gw s).1, x)) :
    ∀ (fuel : Nat) (s : TbState ε), P s → MAX_SIM_TIME - s.time < fuel →
      Q (mainLoop E gw fuel s) := by
  intro fuel
  induction fuel with
  | zero => intro s _ h; omega
  | succ n ih =>
    intro s hP hfuel
    unfold mainLoop
    by_cases hf : E.gotFinish s.env = true
    · simp only [hf, if_true]
      exact hfin s hP hf
    · have hf2 : E.gotFinish s.env = false := by simpa using hf
      by_cases ht : s.time < MAX_SIM_TIME
      · simp only [hf2, ht, not_true_eq_false, if_false, Bool.false_eq_true]
        cases hk : (tick E gw s).2 with
        | some x =>
          have hq := hbrk s x hP hf2 ht hk
          have hpair : tick E gw s = ((tick E gw s).1, some x) := by rw [← hk]
          rw [hpair]
          exact hq
        | none =>
          have hp := hnext s hP hf2 ht hk
          have hpair : tick E gw s = ((tick E gw s).1, none) := by rw [← hk]
          have htime := tick_time E gw s
          rw [hk] at htime
          simp only [if_true] at htime
          have hmod : (s.time + 1) % 2 ^ 64 = s.time + 1 :=
            Nat.mod_eq_of_lt (by simp only [MAX_SIM_TIME, MAX_SIM_CYCLES] at ht; omega)
          rw [hmod] at htime
          rw [hpair]
          exact ih _ hp (by omega)
      · simp only [hf2, ht, not_false_eq_true, if_true, Bool.false_eq_true, if_false]
        exact hceil s hP hf2 ht

/-- The invariant holds at line 160 when the clock port holds one bit. -/
theorem initState_inv (e0 : ε) (clk0 rst0 : Nat) (hclk : clk0 ≤ 1) :
    LoopInv (initState e0 clk0 rst0) := by
  refine ⟨hclk, rfl, rfl, rfl, by simp [initState, TbState.ctl], rfl, ?_, rfl, rfl, rfl, rfl,
    rfl, rfl⟩
  show 0 ≤ _
  omega

/-- Under the invariant the time stays below the ceiling. -/
theorem LoopInv.time_lt {s : TbState ε} (h : LoopInv s) : s.time < MAX_SIM_TIME := by
  have h1 := h.time_le
  have h2 := h.wd_le
  simp only [TbState.ctl, WATCHDOG_TIMEOUT] at h1 h2
  simp only [MAX_SIM_TIME, MAX_SIM_CYCLES]
  split_ifs at h1 <;> omega

/-- Every run from a state of the invariant ends as LoopPost says. -/
theorem mainLoop_post (E : Env ε) (gw : Bool) (fuel : Nat) (s : TbState ε) (hI : LoopInv s)
    (hfuel : MAX_SIM_TIME - s.time < fuel) : LoopPost E (mainLoop E gw fuel s) := by
  refine mainLoop_rule E gw LoopInv (LoopPost E) ?_ ?_ ?_ ?_ fuel s hI hfuel
  · intro s hP hf
    exact ⟨hP, hf⟩
  · intro s hP _ ht
    exact absurd hP.time_lt ht
  · intro s hP _ ht hk
    exact ((tick_step E gw hP ht).1 hk).1
  · intro s x hP _ ht hk
    exact (tick_step E gw hP ht).2 x hk

/-- Every run of main ends as LoopPost says. -/
theorem runLoop_post (E : Env ε) (gw : Bool) (e0 : ε) (clk0 rst0 : Nat) (hclk : clk0 ≤ 1) :
    LoopPost E (runLoop E gw e0 clk0 rst0) :=
  mainLoop_post E gw _ _ (initState_inv e0 clk0 rst0 hclk)
    (by simp only [initState, MAX_SIM_TIME, MAX_SIM_CYCLES]; omega)

/-- More fuel does not change a run that ended. -/
theorem mainLoop_fuel (E : Env ε) (gw : Bool) :
    ∀ (fuel : Nat) (s : TbState ε), (mainLoop E gw fuel s).2 ≠ LoopExit.outOfFuel →
      ∀ more, mainLoop E gw (fuel + more) s = mainLoop E gw fuel s := by
  intro fuel
  induction fuel with
  | zero => intro s h; simp [mainLoop] at h
  | succ n ih =>
    intro s h more
    have e : n + 1 + more = (n + more) + 1 := by omega
    rw [e]
    unfold mainLoop at h ⊢
    by_cases hf : E.gotFinish s.env = true
    · simp only [hf, if_true]
    · have hf2 : E.gotFinish s.env = false := by simpa using hf
      by_cases ht : s.time < MAX_SIM_TIME
      · simp only [hf2, ht, not_true_eq_false, if_false, Bool.false_eq_true] at h ⊢
        cases hk : (tick E gw s).2 with
        | some x =>
          have hpair : tick E gw s = ((tick E gw s).1, some x) := by rw [← hk]
          rw [hpair]
        | none =>
          have hpair : tick E gw s = ((tick E gw s).1, none) := by rw [← hk]
          rw [hpair] at h ⊢
          exact ih _ h more
      · simp only [hf2, ht, not_false_eq_true, if_true, Bool.false_eq_true, if_false]
/-! ## The calls of one iteration -/

theorem callsBetween_append (s t : TbState ε) (evs : List Event) (h : t.log = evs ++ s.log) :
    callsBetween s t = evs.reverse := by
  unfold callsBetween
  rw [h]
  simp

/-- The log after one iteration: the clock step, then the calls of the block
up to checkData when the block runs, then the calls of the exit taken or of
lines 224-226. -/
theorem tick_log (E : Env ε) (gw : Bool) (s : TbState ε) :
    ∃ post : List Event,
      (((tick E gw s).2 = some LoopExit.watchdog ∧
          post = [Event.notifyError, Event.watchdogWarn]) ∨
        ((tick E gw s).2 = some LoopExit.endOfSim ∧ post = [Event.endOfSimLog]) ∨
        ((tick E gw s).2 = none ∧
          post = Event.timeInc :: (if gw = true then [Event.dump s.time] else []))) ∧
      (tick E gw s).1.log = post ++
        ((if isActive (clockStep E s) = true then
            Event.checkData (checkResult E (clockStep E s)) ::
              (scheduleCalls E (clockStep E s) ++
                [Event.rspMonitor, Event.reqMonitor, Event.eval,
                  Event.drive s.obi_req s.reg_req])
          else []) ++ [Event.eval, Event.clkGen, Event.rstDut s.time]) ++ s.log := by
  have hl := preExit_log E (clockStep E s)
  rw [clockStep_log] at hl
  have hreq : (clockStep E s).obi_req = s.obi_req := rfl
  have hreg : (clockStep E s).reg_req = s.reg_req := rfl
  rw [hreq, hreg] at hl
  have ht1 : (clockStep E s).time = s.time := rfl
  have ht2 : (preExit E (clockStep E s)).time = s.time :=
    congrArg Ctl.time (preExit_ctl E (clockStep E s))
  rcases tick_cases E gw s with ⟨hact, hk⟩ | ⟨hact, _, hk⟩ | ⟨hact, _, _, _, hk⟩ |
    ⟨hact, _, _, _, hk⟩ | ⟨hact, _, _, hk⟩ <;> rw [hk, hact]
  · refine ⟨_, Or.inr (Or.inr ⟨rfl, rfl⟩), ?_⟩
    rw [advanceStep_log, clockStep_log, ht1]
    simp
  · refine ⟨_, Or.inl ⟨rfl, rfl⟩, ?_⟩
    show Event.notifyError :: Event.watchdogWarn :: (preExit E (clockStep E s)).log = _
    rw [hl]
    simp
  · refine ⟨_, Or.inr (Or.inl ⟨rfl, rfl⟩), ?_⟩
    show Event.endOfSimLog :: (preExit E (clockStep E s)).log = _
    rw [hl]
    simp
  · refine ⟨_, Or.inr (Or.inr ⟨rfl, rfl⟩), ?_⟩
    rw [advanceStep_log]
    show Event.timeInc :: ((if gw = true then [Event.dump (preExit E (clockStep E s)).time]
      else []) ++ (preExit E (clockStep E s)).log) = _
    rw [hl, ht2]
    simp
  · refine ⟨_, Or.inr (Or.inr ⟨rfl, rfl⟩), ?_⟩
    rw [advanceStep_log]
    show Event.timeInc :: ((if gw = true then [Event.dump (preExit E (clockStep E s)).time]
      else []) ++ (preExit E (clockStep E s)).log) = _
    rw [hl, ht2]
    simp

/-- The calls of one iteration in the order they are made: the clock step,
the block up to checkData when it runs, then the calls of the exit taken
(warning and notifyError, or the end-of-simulation message) or those of lines
224-226 (dump, timeInc). -/
theorem tickCalls_eq (E : Env ε) (gw : Bool) (s : TbState ε) :
    ∃ tail : List Event,
      (((tick E gw s).2 = some LoopExit.watchdog ∧
          tail = [Event.watchdogWarn, Event.notifyError]) ∨
        ((tick E gw s).2 = some LoopExit.endOfSim ∧ tail = [Event.endOfSimLog]) ∨
        ((tick E gw s).2 = none ∧
          tail = (if gw = true then [Event.dump s.time] else []) ++ [Event.timeInc])) ∧
      tickCalls E gw s =
        [Event.rstDut s.time, Event.clkGen, Event.eval] ++
        (if isActive (clockStep E s) = true then
          [Event.drive s.obi_req s.reg_req, Event.eval, Event.reqMonitor, Event.rspMonitor] ++
            (scheduleCalls E (clockStep E s)).reverse ++
            [Event.checkData (checkResult E (clockStep E s))]
         else []) ++ tail := by
  obtain ⟨post, hpost, hlog⟩ := tick_log E gw s
  refine ⟨post.reverse, ?_, ?_⟩
  · rcases hpost with ⟨h1, h2⟩ | ⟨h1, h2⟩ | ⟨h1, h2⟩
    · exact Or.inl ⟨h1, by rw [h2]; rfl⟩
    · exact Or.inr (Or.inl ⟨h1, by rw [h2]; rfl⟩)
    · refine Or.inr (Or.inr ⟨h1, ?_⟩)
      rw [h2]
      split_ifs <;> rfl
  · unfold tickCalls
    rw [callsBetween_append s _ _ hlog]
    split_ifs <;> simp

/-- The calls after checkData are none of drive, monitor, schedule or check. -/
theorem tail_isTail (E : Env ε) (gw : Bool) (s : TbState ε) (tail : List Event)
    (h : ((tick E gw s).2 = some LoopExit.watchdog ∧
          tail = [Event.watchdogWarn, Event.notifyError]) ∨
        ((tick E gw s).2 = some LoopExit.endOfSim ∧ tail = [Event.endOfSimLog]) ∨
        ((tick E gw s).2 = none ∧
          tail = (if gw = true then [Event.dump s.time] else []) ++ [Event.timeInc])) :
    ∀ ev ∈ tail, ev.isTail = true := by
  intro ev hev
  rcases h with ⟨_, h2⟩ | ⟨_, h2⟩ | ⟨_, h2⟩ <;> rw [h2] at hev
  · simp at hev
    rcases hev with h | h <;> subst h <;> rfl
  · simp at hev
    subst hev
    rfl
  · split_ifs at hev <;> simp at hev
    · rcases hev with h | h <;> subst h <;> rfl
    · subst hev
      rfl

theorem scheduleCalls_isSchedule (E : Env ε) (s : TbState ε) :
    ∀ ev ∈ scheduleCalls E s, ev.isSchedule = true := by
  intro ev hev
  simp only [scheduleCalls] at hev
  rcases List.mem_append.mp hev with h | h <;> split_ifs at h <;> simp at h <;>
    subst h <;> rfl

/-- The two request slots after one iteration: emptied by the block. -/
theorem tick_req (E : Env ε) (gw : Bool) (s : TbState ε) :
    (tick E gw s).1.obi_req = (if isActive (clockStep E s) = true then none else s.obi_req) ∧
    (tick E gw s).1.reg_req = (if isActive (clockStep E s) = true then none else s.reg_req) := by
  have hp := preExit_ctl E (clockStep E s)
  have p1 : (preExit E (clockStep E s)).obi_req = none := congrArg Ctl.obi_req hp
  have p2 : (preExit E (clockStep E s)).reg_req = none := congrArg Ctl.reg_req hp
  rcases tick_cases E gw s with ⟨hact, hk⟩ | ⟨hact, _, hk⟩ | ⟨hact, _, _, _, hk⟩ |
    ⟨hact, _, _, _, hk⟩ | ⟨hact, _, _, hk⟩ <;> rw [hk, hact]
  · exact ⟨congrArg Ctl.obi_req (advanceStep_ctl gw _),
      congrArg Ctl.reg_req (advanceStep_ctl gw _)⟩
  · exact ⟨p1, p2⟩
  · exact ⟨p1, p2⟩
  · exact ⟨(congrArg Ctl.obi_req (advanceStep_ctl gw _)).trans p1,
      (congrArg Ctl.reg_req (advanceStep_ctl gw _)).trans p2⟩
  · exact ⟨(congrArg Ctl.obi_req (advanceStep_ctl gw _)).trans p1,
      (congrArg Ctl.reg_req (advanceStep_ctl gw _)).trans p2⟩
/-! ## The state of the components through one iteration -/

theorem preExit_env (E : Env ε) (s : TbState ε) :
    (preExit E s).env = (E.checkData (scheduled E s).env).1 := by
  unfold preExit
  rw [watchdogUpdate_env]
  simp only [checkStep]
  split_ifs <;> rfl

/-- Without a pending check request no schedule call is made: checkData is
called on the state the monitors left. -/
theorem scheduled_env (E : Env ε) (s : TbState ε) (h1 : s.obi_check_req = none)
    (h2 : s.reg_check_req = none) : (scheduled E s).env = monitoredEnv E s := by
  have a1 : (monitorStep E (driveStep E s)).reg_check_req = none := h2
  have a2 : (scheduleReg E (monitorStep E (driveStep E s))).env = monitoredEnv E s := by
    simp only [scheduleReg]
    split_ifs with c1 c2
    · rw [a1] at c2; simp at c2
    · rfl
    · rfl
  have a3 : (scheduleReg E (monitorStep E (driveStep E s))).obi_check_req = none :=
    (congrArg Ctl.obi_check_req ((scheduleReg_ctl E _).trans
      ((monitorStep_ctl E _).trans (driveStep_ctl E s)))).trans h1
  unfold scheduled
  simp only [scheduleObi]
  split_ifs with c1 c2 c3
  · exact absurd c2.2 (by simp [a3])
  · exact a2
  · exact absurd c3.2 (by simp [a3])
  · exact a2

/-- A cycle of the stall scenario: no check fires, the error count stays 0. -/
theorem quiet_block (E : Env ε) {s : TbState ε} (hI : LoopInv s)
    (hchk : ∀ e, (E.checkData e).2 = 0) (hlaws : ErrNumLaws E)
    (herr : E.getErrNum s.env = 0) :
    (preExit E (clockStep E s)).end_of_test = s.end_of_test ∧
    E.getErrNum (preExit E (clockStep E s)).env = 0 := by
  constructor
  · have h := congrArg Ctl.end_of_test (preExit_ctl E (clockStep E s))
    have hr : checkResult E (clockStep E s) = 0 := hchk _
    rw [hr] at h
    simpa using h
  · rw [preExit_env, hlaws.checkData _ (hchk _),
      scheduled_env E (clockStep E s) hI.obi_check_req hI.reg_check_req]
    show E.getErrNum (E.rspMonitor (E.reqMonitor (E.eval (E.drive (E.eval s.env _ _) _ _) _ _))) = 0
    rw [hlaws.rspMonitor, hlaws.reqMonitor, hlaws.eval, hlaws.drive, hlaws.eval]
    exact herr
/-- A run with more than WATCHDOG_TIMEOUT active cycles, whatever the
components do: it is left through the watchdog branch in the cycle after the
threshold, with one notifyError call, before the time ceiling. -/
theorem watchdog_exit_of_long_run (E : Env ε) (gw : Bool) (e0 : ε) (clk0 rst0 : Nat)
    (hclk : clk0 ≤ 1)
    (hrun : WATCHDOG_TIMEOUT < activeCycles (runLoop E gw e0 clk0 rst0).1.log) :
    (runLoop E gw e0 clk0 rst0).2 = LoopExit.watchdog ∧
    activeCycles (runLoop E gw e0 clk0 rst0).1.log = WATCHDOG_TIMEOUT + 1 ∧
    notifyCount (runLoop E gw e0 clk0 rst0).1.log = 1 ∧
    (runLoop E gw e0 clk0 rst0).1.time < MAX_SIM_TIME := by
  have h := runLoop_post E gw e0 clk0 rst0 hclk
  unfold LoopPost at h
  cases hx : (runLoop E gw e0 clk0 rst0).2 <;> rw [hx] at h <;> simp only at h
  · have h1 := h.1.wd
    have h2 := h.1.wd_le
    rw [h1] at h2
    exact absurd hrun (by omega)
  · obtain ⟨p1, p2, p3, _, _⟩ := h
    refine ⟨rfl, p1, p2, ?_⟩
    simp only [WATCHDOG_TIMEOUT] at p3
    simp only [MAX_SIM_TIME, MAX_SIM_CYCLES]
    omega
  · obtain ⟨k, _, h2, h3, _⟩ := h
    exact absurd hrun (by omega)
/-- The run that issues no transactions, with a model that never signals
finish and a scoreboard on which no check fires: the loop is left through the
watchdog branch in the 101st active cycle, notifyError having been called
exactly once, as the last call; the final error count is 1 and the summary is
CHECKS FAILED. -/
theorem quiet_run_stalls (E : Env ε) (gw : Bool) (e0 : ε) (clk0 rst0 : Nat) (hclk : clk0 ≤ 1)
    (hfin : ∀ e, E.gotFinish e = false) (hchk : ∀ e, (E.checkData e).2 = 0)
    (hlaws : ErrNumLaws E) (h0 : E.getErrNum e0 = 0) :
    (runLoop E gw e0 clk0 rst0).2 = LoopExit.watchdog ∧
    activeCycles (runLoop E gw e0 clk0 rst0).1.log = WATCHDOG_TIMEOUT + 1 ∧
    notifyCount (runLoop E gw e0 clk0 rst0).1.log = 1 ∧
    (runLoop E gw e0 clk0 rst0).1.log.head? = some Event.notifyError ∧
    (runLoop E gw e0 clk0 rst0).1.step_cnt = 0 ∧
    (runLoop E gw e0 clk0 rst0).1.time < MAX_SIM_TIME ∧
    E.getErrNum (runLoop E gw e0 clk0 rst0).1.env = 1 ∧
    (main E gw e0 clk0 rst0).outcome = Outcome.checksFailed := by
  have key : (runLoop E gw e0 clk0 rst0).2 = LoopExit.watchdog ∧
      LoopPost E (runLoop E gw e0 clk0 rst0) ∧
      E.getErrNum (runLoop E gw e0 clk0 rst0).1.env = 1 ∧
      (runLoop E gw e0 clk0 rst0).1.log.head? = some Event.notifyError ∧
      (runLoop E gw e0 clk0 rst0).1.step_cnt = 0 := by
    refine mainLoop_rule E gw
      (fun s => LoopInv s ∧ s.end_of_test = false ∧ E.getErrNum s.env = 0)
      (fun r => r.2 = LoopExit.watchdog ∧ LoopPost E r ∧ E.getErrNum r.1.env = 1 ∧
        r.1.log.head? = some Event.notifyError ∧ r.1.step_cnt = 0)
      ?_ ?_ ?_ ?_ (MAX_SIM_TIME + 1) (initState e0 clk0 rst0)
      ⟨initState_inv e0 clk0 rst0 hclk, rfl, h0⟩
      (by simp only [initState, MAX_SIM_TIME, MAX_SIM_CYCLES]; omega)
    · intro s _ hf
      rw [hfin] at hf
      exact absurd hf (by simp)
    · intro s hP _ ht
      exact absurd hP.1.time_lt ht
    · intro s hP _ ht hk
      refine ⟨((tick_step E gw hP.1 ht).1 hk).1, ?_⟩
      obtain ⟨q1, q2⟩ := quiet_block E hP.1 hchk hlaws hP.2.2
      rcases tick_cases E gw s with ⟨_, hc⟩ | ⟨_, _, hc⟩ | ⟨_, _, _, _, hc⟩ |
        ⟨_, _, h2, _, hc⟩ | ⟨_, _, _, hc⟩
      · rw [hc]
        constructor
        · exact (congrArg Ctl.end_of_test (advanceStep_ctl gw _)).trans hP.2.1
        · rw [advanceStep_env]
          show E.getErrNum (E.eval s.env _ _) = 0
          rw [hlaws.eval]
          exact hP.2.2
      · rw [hc] at hk; simp at hk
      · rw [hc] at hk; simp at hk
      · rw [q1, hP.2.1] at h2
        simp at h2
      · rw [hc]
        constructor
        · exact (congrArg Ctl.end_of_test (advanceStep_ctl gw _)).trans (q1.trans hP.2.1)
        · rw [advanceStep_env]
          exact q2
    · intro s x hP _ ht hk
      have hpost := (tick_step E gw hP.1 ht).2 x hk
      obtain ⟨q1, q2⟩ := quiet_block E hP.1 hchk hlaws hP.2.2
      rcases tick_cases E gw s with ⟨_, hc⟩ | ⟨hact, _, hc⟩ | ⟨_, _, h2, _, hc⟩ |
        ⟨_, _, _, _, hc⟩ | ⟨_, _, _, hc⟩
      · rw [hc] at hk; simp at hk
      · have hx : x = LoopExit.watchdog := by
          rw [hc] at hk
          simpa using hk.symm
        subst hx
        refine ⟨rfl, hpost, ?_, ?_, ?_⟩
        · rw [hc]
          show E.getErrNum (E.notifyError (preExit E (clockStep E s)).env) = 1
          rw [hlaws.notifyError, q2]
          rfl
        · rw [hc]
          rfl
        · rw [hc]
          exact (preExit_facts E hP.1 hact).2.2.2.1
      · rw [q1, hP.2.1] at h2
        simp at h2
      · rw [hc] at hk; simp at hk
      · rw [hc] at hk; simp at hk
  obtain ⟨k1, k2, k3, k4, k5⟩ := key
  have hpost : LoopPost E ((runLoop E gw e0 clk0 rst0).1, LoopExit.watchdog) := by
    rw [← k1]
    exact k2
  obtain ⟨p1, p2, p3, _, _⟩ := hpost
  refine ⟨k1, p1, p2, k4, k5, ?_, k3, ?_⟩
  · have h3 : (runLoop E gw e0 clk0 rst0).1.time ≤ 2 * WATCHDOG_TIMEOUT + 7 := p3
    simp only [WATCHDOG_TIMEOUT] at h3
    simp only [MAX_SIM_TIME, MAX_SIM_CYCLES]
    omega
  · have he : E.getErrNum (E.final (runLoop E gw e0 clk0 rst0).1.env) = 1 := by
      rw [hlaws.final]
      exact k3
    simp only [main, summary, he]
    simp

/-- The step counters and the watchdog when the loop is left. -/
theorem runLoop_counters (E : Env ε) (gw : Bool) (e0 : ε) (clk0 rst0 : Nat) (hclk : clk0 ≤ 1) :
    (runLoop E gw e0 clk0 rst0).1.step_cnt = 0 ∧
    (runLoop E gw e0 clk0 rst0).1.prev_step_cnt = 0 ∧
    (runLoop E gw e0 clk0 rst0).1.watchdog = activeCycles (runLoop E gw e0 clk0 rst0).1.log := by
  refine mainLoop_rule E gw LoopInv
    (fun r => r.1.step_cnt = 0 ∧ r.1.prev_step_cnt = 0 ∧ r.1.watchdog = activeCycles r.1.log)
    ?_ ?_ ?_ ?_ (MAX_SIM_TIME + 1) (initState e0 clk0 rst0)
    (initState_inv e0 clk0 rst0 hclk)
    (by simp only [initState, MAX_SIM_TIME, MAX_SIM_CYCLES]; omega)
  · intro s hP _
    exact ⟨hP.step, hP.prev, hP.wd⟩
  · intro s hP _ _
    exact ⟨hP.step, hP.prev, hP.wd⟩
  · intro s hP _ ht hk
    exact ((tick_step E gw hP ht).1 hk).1
  · intro s x hP _ _ hk
    rcases tick_cases E gw s with ⟨_, hc⟩ | ⟨hact, _, hc⟩ | ⟨hact, _, _, _, hc⟩ |
      ⟨_, _, _, _, hc⟩ | ⟨_, _, _, hc⟩
    · rw [hc] at hk; simp at hk
    · obtain ⟨f1, f2, f3, f4, f5, f6, f7, f8, f9, _⟩ := preExit_facts E hP hact
      rw [hc]
      refine ⟨f4, f5, ?_⟩
      show (preExit E (clockStep E s)).watchdog =
        activeCycles (Event.notifyError :: Event.watchdogWarn :: (preExit E (clockStep E s)).log)
      rw [activeCycles_cons, activeCycles_cons, f9, f6]
      simp [Event.isDrive]
    · obtain ⟨f1, f2, f3, f4, f5, f6, f7, f8, f9, _⟩ := preExit_facts E hP hact
      rw [hc]
      refine ⟨f4, f4, ?_⟩
      show (preExit E (clockStep E s)).watchdog =
        activeCycles (Event.endOfSimLog :: (preExit E (clockStep E s)).log)
      rw [activeCycles_cons, f9, f6]
      simp [Event.isDrive]
    · rw [hc] at hk; simp at hk
    · rw [hc] at hk; simp at hk

/-- The scoreboard of the specification obeys the scoreboard part of
ErrNumLaws: one comparison adds at most one error, a checkData call at most
two, a call in which no check fires none, and notifyError exactly one. -/
theorem Scb.errNum_laws (s : Scb) (rsp : Protocol → Option Nat) :
    (∀ p o, (s.checkProtocol p o).1.error_count ≤ s.error_count + 1) ∧
    (s.checkData rsp).1.error_count ≤ s.error_count + 2 ∧
    ((s.checkData rsp).2 = 0 → (s.checkData rsp).1.error_count = s.error_count) ∧
    s.notifyError.error_count = (s.error_count + 1) % 2 ^ 32 := by
  have one : ∀ (t : Scb) p o, (t.checkProtocol p o).1.error_count ≤ t.error_count + 1 ∧
      ((t.checkProtocol p o).2 = false → (t.checkProtocol p o).1 = t) := by
    intro t p o
    unfold Scb.checkProtocol
    split
    · refine ⟨?_, fun h => by simp at h⟩
      show (if _ then (t.error_count + 1) % 2 ^ 32 else t.error_count) ≤ t.error_count + 1
      split_ifs
      · exact Nat.mod_le _ _
      · omega
    · exact ⟨Nat.le_succ _, fun _ => rfl⟩
  refine ⟨fun p o => (one s p o).1, ?_, ?_, rfl⟩
  · have h1 := (one s Protocol.obi (rsp Protocol.obi)).1
    have h2 := (one (s.checkProtocol Protocol.obi (rsp Protocol.obi)).1 Protocol.reg
      (rsp Protocol.reg)).1
    show ((s.checkProtocol Protocol.obi (rsp Protocol.obi)).1.checkProtocol Protocol.reg
      (rsp Protocol.reg)).1.error_count ≤ s.error_count + 2
    omega
  · intro h
    have h2 : (if ((s.checkProtocol Protocol.obi (rsp Protocol.obi)).2 ||
        ((s.checkProtocol Protocol.obi (rsp Protocol.obi)).1.checkProtocol Protocol.reg
          (rsp Protocol.reg)).2) = true then (1 : Int) else 0) = 0 := h
    cases hb1 : (s.checkProtocol Protocol.obi (rsp Protocol.obi)).2 <;>
      cases hb2 : ((s.checkProtocol Protocol.obi (rsp Protocol.obi)).1.checkProtocol
        Protocol.reg (rsp Protocol.reg)).2 <;>
      simp [hb1, hb2] at h2
    have e1 := (one s Protocol.obi (rsp Protocol.obi)).2 hb1
    have e2 := (one (s.checkProtocol Protocol.obi (rsp Protocol.obi)).1 Protocol.reg
      (rsp Protocol.reg)).2 hb2
    show ((s.checkProtocol Protocol.obi (rsp Protocol.obi)).1.checkProtocol Protocol.reg
      (rsp Protocol.reg)).1.error_count = s.error_count
    rw [e2, e1]
/-! ## The claims -/

/-- C1.  Final reporting: whatever the error count e, the transaction count m
and the done flag d of the scoreboard, the summary is CHECKS FAILED exactly
when e > 0, CHECKS PENDING exactly when e = 0 and d is false, CHECKS PASSED
exactly when e = 0 and d is true; the three cases exclude each other and one
of them holds, and the summary prints e and m. -/
theorem summary_outcome (e m : Nat) (d gen_waves : Bool) :
    ((summary e m d gen_waves).outcome = Outcome.checksFailed ↔ e > 0) ∧
    ((summary e m d gen_waves).outcome = Outcome.checksPending ↔ e = 0 ∧ d = false) ∧
    ((summary e m d gen_waves).outcome = Outcome.checksPassed ↔ e = 0 ∧ d = true) ∧
    (summary e m d gen_waves).shownErrors = e ∧
    (summary e m d gen_waves).shownTransactions = m ∧
    ((e > 0 ∧ ¬ (e = 0 ∧ d = false) ∧ ¬ (e = 0 ∧ d = true)) ∨
     (¬ e > 0 ∧ (e = 0 ∧ d = false) ∧ ¬ (e = 0 ∧ d = true)) ∨
     (¬ e > 0 ∧ ¬ (e = 0 ∧ d = false) ∧ (e = 0 ∧ d = true))) := by
  unfold summary
  rcases Nat.eq_zero_or_pos e with h | h
  · subst h
    cases d <;> simp
  · have h2 : e ≠ 0 := by omega
    cases d <;> simp [h, h2]
/-- A cycle adds at most two errors to the count of the scoreboard. -/
theorem block_errNum (E : Env ε) {s : TbState ε} (hI : LoopInv s) (hlaws : ErrNumLaws E) :
    E.getErrNum (preExit E (clockStep E s)).env ≤ E.getErrNum s.env + 2 := by
  rw [preExit_env, scheduled_env E (clockStep E s) hI.obi_check_req hI.reg_check_req]
  refine le_trans (hlaws.checkData_le _) ?_
  show E.getErrNum (E.rspMonitor (E.reqMonitor (E.eval (E.drive (E.eval s.env _ _) _ _) _ _)))
    + 2 ≤ E.getErrNum s.env + 2
  rw [hlaws.rspMonitor, hlaws.reqMonitor, hlaws.eval, hlaws.drive, hlaws.eval]

/-- When the loop is left through the watchdog branch, the last call is
notifyError and the error count is at least 1, whatever checks fired before. -/
theorem watchdog_exit_errNum (E : Env ε) (gw : Bool) (e0 : ε) (clk0 rst0 : Nat)
    (hclk : clk0 ≤ 1) (hlaws : ErrNumLaws E) (h0 : E.getErrNum e0 = 0)
    (hx : (runLoop E gw e0 clk0 rst0).2 = LoopExit.watchdog) :
    1 ≤ E.getErrNum (runLoop E gw e0 clk0 rst0).1.env ∧
    (runLoop E gw e0 clk0 rst0).1.log.head? = some Event.notifyError := by
  have key : (runLoop E gw e0 clk0 rst0).2 = LoopExit.watchdog →
      1 ≤ E.getErrNum (runLoop E gw e0 clk0 rst0).1.env ∧
      (runLoop E gw e0 clk0 rst0).1.log.head? = some Event.notifyError := by
    have hinit : E.getErrNum (initState e0 clk0 rst0).env ≤
        2 * (initState e0 clk0 rst0).watchdog := by
      show E.getErrNum e0 ≤ 2 * 0
      rw [h0]
    refine mainLoop_rule E gw
      (fun s => LoopInv s ∧ E.getErrNum s.env ≤ 2 * s.watchdog)
      (fun r => r.2 = LoopExit.watchdog →
        1 ≤ E.getErrNum r.1.env ∧ r.1.log.head? = some Event.notifyError)
      ?_ ?_ ?_ ?_ (MAX_SIM_TIME + 1) (initState e0 clk0 rst0)
      ⟨initState_inv e0 clk0 rst0 hclk, hinit⟩
      (by simp only [initState, MAX_SIM_TIME, MAX_SIM_CYCLES]; omega)
    · intro s _ _ hc
      exact absurd hc (by simp)
    · intro s _ _ _ hc
      exact absurd hc (by simp)
    · intro s hP _ ht hk
      refine ⟨((tick_step E gw hP.1 ht).1 hk).1, ?_⟩
      have hb := block_errNum E hP.1 hlaws
      rcases tick_cases E gw s with ⟨_, hc⟩ | ⟨_, _, hc⟩ | ⟨_, _, _, _, hc⟩ |
        ⟨hact, _, _, _, hc⟩ | ⟨hact, _, _, hc⟩
      · rw [hc]
        have hw : (advanceStep gw (clockStep E s)).watchdog = s.watchdog :=
          congrArg Ctl.watchdog (advanceStep_ctl gw _)
        show E.getErrNum (advanceStep gw (clockStep E s)).env ≤
          2 * (advanceStep gw (clockStep E s)).watchdog
        rw [hw, advanceStep_env]
        show E.getErrNum (E.eval s.env _ _) ≤ 2 * s.watchdog
        rw [hlaws.eval]
        exact hP.2
      · rw [hc] at hk; simp at hk
      · rw [hc] at hk; simp at hk
      · have f6 := (preExit_facts E hP.1 hact).2.2.2.2.2.1
        rw [hc]
        have hw : (advanceStep gw { preExit E (clockStep E s) with
            prev_step_cnt := (preExit E (clockStep E s)).step_cnt,
            exit_timer := ((preExit E (clockStep E s)).exit_timer + 1) % 2 ^ 32 }).watchdog =
            (preExit E (clockStep E s)).watchdog :=
          congrArg Ctl.watchdog (advanceStep_ctl gw _)
        show E.getErrNum (advanceStep gw _).env ≤ 2 * (advanceStep gw _).watchdog
        rw [hw, advanceStep_env, f6]
        show E.getErrNum (preExit E (clockStep E s)).env ≤ 2 * (s.watchdog + 1)
        have := hP.2
        omega
      · have f6 := (preExit_facts E hP.1 hact).2.2.2.2.2.1
        rw [hc]
        have hw : (advanceStep gw { preExit E (clockStep E s) with
            prev_step_cnt := (preExit E (clockStep E s)).step_cnt }).watchdog =
            (preExit E (clockStep E s)).watchdog :=
          congrArg Ctl.watchdog (advanceStep_ctl gw _)
        show E.getErrNum (advanceStep gw _).env ≤ 2 * (advanceStep gw _).watchdog
        rw [hw, advanceStep_env, f6]
        show E.getErrNum (preExit E (clockStep E s)).env ≤ 2 * (s.watchdog + 1)
        have := hP.2
        omega
    · intro s x hP _ _ hk hxw
      have hxw2 : x = LoopExit.watchdog := hxw
      subst hxw2
      have hb := block_errNum E hP.1 hlaws
      have hwd := hP.1.wd_le
      have hle := hP.2
      simp only [TbState.ctl, WATCHDOG_TIMEOUT] at hwd
      rcases tick_cases E gw s with ⟨_, hc⟩ | ⟨_, _, hc⟩ | ⟨_, _, _, _, hc⟩ |
        ⟨_, _, _, _, hc⟩ | ⟨_, _, _, hc⟩
      · rw [hc] at hk; simp at hk
      · rw [hc]
        refine ⟨?_, rfl⟩
        show 1 ≤ E.getErrNum (E.notifyError (preExit E (clockStep E s)).env)
        rw [hlaws.notifyError]
        have p32 : (2 : Nat) ^ 32 = 4294967296 := by norm_num
        rw [p32]
        omega
      · rw [hc] at hk; simp at hk
      · rw [hc] at hk; simp at hk
      · rw [hc] at hk; simp at hk
  exact key hx

/-- C2.  Stall timeout (the error count of the scoreboard starting at 0 and
obeying ErrNumLaws, the clock port holding one bit; step_cnt is never
changed by this program).  Every run with more than WATCHDOG_TIMEOUT active
cycles, whatever the model does and whatever checks fire, is left through the
watchdog branch in the 101st active cycle, notifyError having been called
exactly once, as the last call; its final error count is at least 1, its
summary is CHECKS FAILED, and the time at the exit is below MAX_SIM_TIME.  In
particular the run that issues no transactions, with a model that never
signals finish and a scoreboard on which no check fires, is such a run, and
its final error count is 1. -/
theorem stall_timeout (E : Env ε) (gw : Bool) (e0 : ε) (clk0 rst0 : Nat) (hclk : clk0 ≤ 1)
    (hlaws : ErrNumLaws E) (h0 : E.getErrNum e0 = 0) :
    (WATCHDOG_TIMEOUT < activeCycles (runLoop E gw e0 clk0 rst0).1.log →
      (runLoop E gw e0 clk0 rst0).2 = LoopExit.watchdog ∧
      activeCycles (runLoop E gw e0 clk0 rst0).1.log = WATCHDOG_TIMEOUT + 1 ∧
      notifyCount (runLoop E gw e0 clk0 rst0).1.log = 1 ∧
      (runLoop E gw e0 clk0 rst0).1.log.head? = some Event.notifyError ∧
      (runLoop E gw e0 clk0 rst0).1.step_cnt = 0 ∧
      (runLoop E gw e0 clk0 rst0).1.time < MAX_SIM_TIME ∧
      1 ≤ E.getErrNum (runLoop E gw e0 clk0 rst0).1.env ∧
      (main E gw e0 clk0 rst0).outcome = Outcome.checksFailed) ∧
    ((∀ e, E.gotFinish e = false) → (∀ e, (E.checkData e).2 = 0) →
      WATCHDOG_TIMEOUT < activeCycles (runLoop E gw e0 clk0 rst0).1.log ∧
      E.getErrNum (runLoop E gw e0 clk0 rst0).1.env = 1) := by
  refine ⟨fun hrun => ?_, fun hfin hchk => ?_⟩
  · obtain ⟨w1, w2, w3, w4⟩ := watchdog_exit_of_long_run E gw e0 clk0 rst0 hclk hrun
    obtain ⟨v1, v2⟩ := watchdog_exit_errNum E gw e0 clk0 rst0 hclk hlaws h0 w1
    refine ⟨w1, w2, w3, v2, (runLoop_counters E gw e0 clk0 rst0 hclk).1, w4, v1, ?_⟩
    have he : 0 < E.getErrNum (E.final (runLoop E gw e0 clk0 rst0).1.env) := by
      rw [hlaws.final]
      exact v1
    simp only [main, summary, he]
    simp
  · obtain ⟨_, q2, _, _, _, _, q7, _⟩ :=
      quiet_run_stalls E gw e0 clk0 rst0 hclk hfin hchk hlaws h0
    refine ⟨?_, q7⟩
    rw [q2]
    exact Nat.lt_succ_self _

/-- The scripted components obey the laws of the error count. -/
theorem scriptEnv_laws (fire : Nat → Int) (fin acc : Nat → Bool) :
    ErrNumLaws (scriptEnv fire fin acc) :=
  ⟨fun _ _ _ => rfl, fun _ => rfl, fun _ _ _ => rfl, fun _ => rfl, fun _ => rfl,
    fun _ _ => rfl, fun _ => Nat.le_add_right _ _, fun _ => rfl⟩

/-- The scripted components that count mismatches obey the laws of the error
count. -/
theorem countingEnv_laws (fire : Nat → Int) (fin acc : Nat → Bool) :
    ErrNumLaws (countingEnv fire fin acc) := by
  refine ⟨fun _ _ _ => rfl, fun _ => rfl, fun _ _ _ => rfl, fun _ => rfl, fun _ => rfl,
    ?_, ?_, fun _ => rfl⟩
  · intro e h
    have hf : fire e.checks = 0 := h
    show (if fire e.checks ≠ 0 then (e.errs + 1) % 2 ^ 32 else e.errs) = e.errs
    rw [if_neg (by simp [hf])]
  · intro e
    show (if fire e.checks ≠ 0 then (e.errs + 1) % 2 ^ 32 else e.errs) ≤ e.errs + 2
    split_ifs
    · exact le_trans (Nat.mod_le _ _) (by omega)
    · omega

set_option maxRecDepth 100000 in
/-- C2, two instances: the scripted run in which nothing ever happens, whose
final error count is 1, and the scripted run whose first check fires in
active cycle 91 and finds a mismatch, whose final error count is 2. -/
theorem stall_timeout_witness :
    ((0 : Nat) ≤ 1 ∧ ErrNumLaws quietEnv ∧ quietEnv.getErrNum ⟨0, 0⟩ = 0 ∧
      (∀ e, quietEnv.gotFinish e = false) ∧ (∀ e, (quietEnv.checkData e).2 = 0)) ∧
    (WATCHDOG_TIMEOUT < activeCycles (runLoop quietEnv true ⟨0, 0⟩ 0 0).1.log ∧
      quietEnv.getErrNum (runLoop quietEnv true ⟨0, 0⟩ 0 0).1.env = 1) ∧
    (ErrNumLaws lateMismatchEnv ∧ lateMismatchEnv.getErrNum ⟨0, 0⟩ = 0 ∧
      WATCHDOG_TIMEOUT < activeCycles (runLoop lateMismatchEnv true ⟨0, 0⟩ 0 0).1.log ∧
      lateMismatchEnv.getErrNum (runLoop lateMismatchEnv true ⟨0, 0⟩ 0 0).1.env = 2) ∧
    ((runLoop lateMismatchEnv true ⟨0, 0⟩ 0 0).2 = LoopExit.watchdog ∧
      activeCycles (runLoop lateMismatchEnv true ⟨0, 0⟩ 0 0).1.log = WATCHDOG_TIMEOUT + 1 ∧
      notifyCount (runLoop lateMismatchEnv true ⟨0, 0⟩ 0 0).1.log = 1 ∧
      (runLoop lateMismatchEnv true ⟨0, 0⟩ 0 0).1.log.head? = some Event.notifyError ∧
      (runLoop lateMismatchEnv true ⟨0, 0⟩ 0 0).1.step_cnt = 0 ∧
      (runLoop lateMismatchEnv true ⟨0, 0⟩ 0 0).1.time < MAX_SIM_TIME ∧
      1 ≤ lateMismatchEnv.getErrNum (runLoop lateMismatchEnv true ⟨0, 0⟩ 0 0).1.env ∧
      (main lateMismatchEnv true ⟨0, 0⟩ 0 0).outcome = Outcome.checksFailed) :=
  ⟨⟨by decide, scriptEnv_laws _ _ _, rfl, fun _ => rfl, fun _ => rfl⟩,
    (stall_timeout quietEnv true ⟨0, 0⟩ 0 0 (by decide) (scriptEnv_laws _ _ _) rfl).2
      (fun _ => rfl) (fun _ => rfl),
    ⟨countingEnv_laws _ _ _, rfl, by decide!, by decide!⟩,
    (stall_timeout lateMismatchEnv true ⟨0, 0⟩ 0 0 (by decide) (countingEnv_laws _ _ _) rfl).1
      (by decide!)⟩
set_option maxRecDepth 100000 in
/-- C3, as stated, fails: in the scripted run whose first check fires in
active cycle 91 the loop is left in active cycle 101 = 91 + 10, but through
the watchdog branch and after a notifyError call, not through the
end-of-simulation branch. -/
theorem grace_period_late_check :
    firstFire (runLoop lateCheckEnv true ⟨0, 0⟩ 0 0).1.log = some 91 ∧
    activeCycles (runLoop lateCheckEnv true ⟨0, 0⟩ 0 0).1.log = 91 + END_OF_TEST_TIMEOUT ∧
    (runLoop lateCheckEnv true ⟨0, 0⟩ 0 0).2 = LoopExit.watchdog ∧
    (runLoop lateCheckEnv true ⟨0, 0⟩ 0 0).2 ≠ LoopExit.endOfSim ∧
    notifyCount (runLoop lateCheckEnv true ⟨0, 0⟩ 0 0).1.log = 1 := by
  decide!

/-- C3, amended.  Grace period: in every run in which checkData first returns
non-zero in active cycle k with k + END_OF_TEST_TIMEOUT not above
WATCHDOG_TIMEOUT, and which is not ended by the finish flag of the model, the
loop runs for exactly END_OF_TEST_TIMEOUT further active cycles and is left
through the end-of-simulation branch in active cycle k + 10; the watchdog
branch is not taken and main makes no notifyError call. -/
theorem grace_period (E : Env ε) (gw : Bool) (e0 : ε) (clk0 rst0 : Nat) (hclk : clk0 ≤ 1)
    (k : Nat) (hk : firstFire (runLoop E gw e0 clk0 rst0).1.log = some k)
    (hle : k + END_OF_TEST_TIMEOUT ≤ WATCHDOG_TIMEOUT)
    (hnf : (runLoop E gw e0 clk0 rst0).2 ≠ LoopExit.finish) :
    (runLoop E gw e0 clk0 rst0).2 = LoopExit.endOfSim ∧
    activeCycles (runLoop E gw e0 clk0 rst0).1.log = k + END_OF_TEST_TIMEOUT ∧
    (runLoop E gw e0 clk0 rst0).2 ≠ LoopExit.watchdog ∧
    notifyCount (runLoop E gw e0 clk0 rst0).1.log = 0 := by
  have h := runLoop_post E gw e0 clk0 rst0 hclk
  unfold LoopPost at h
  cases hx : (runLoop E gw e0 clk0 rst0).2 <;> rw [hx] at h <;> simp only at h
  · exact absurd hx hnf
  · have h4 := h.2.2.2.1 k hk
    exact absurd h4 (by omega)
  · obtain ⟨k2, h1, h2, _, h4⟩ := h
    rw [hk] at h1
    have hkk : k = k2 := by simpa using h1
    subst hkk
    exact ⟨rfl, h2, by simp, h4⟩

set_option maxRecDepth 100000 in
/-- C3, an instance: the first check fires in the third active cycle and the
loop is left in the thirteenth. -/
theorem grace_period_witness :
    ((0 : Nat) ≤ 1 ∧ firstFire (runLoop earlyCheckEnv true ⟨0, 0⟩ 0 0).1.log = some 3 ∧
      3 + END_OF_TEST_TIMEOUT ≤ WATCHDOG_TIMEOUT ∧
      (runLoop earlyCheckEnv true ⟨0, 0⟩ 0 0).2 ≠ LoopExit.finish) ∧
    (runLoop earlyCheckEnv true ⟨0, 0⟩ 0 0).2 = LoopExit.endOfSim ∧
    activeCycles (runLoop earlyCheckEnv true ⟨0, 0⟩ 0 0).1.log = 3 + END_OF_TEST_TIMEOUT ∧
    (runLoop earlyCheckEnv true ⟨0, 0⟩ 0 0).2 ≠ LoopExit.watchdog ∧
    notifyCount (runLoop earlyCheckEnv true ⟨0, 0⟩ 0 0).1.log = 0 :=
  ⟨⟨by decide, by decide!, by decide, by decide!⟩,
    grace_period earlyCheckEnv true ⟨0, 0⟩ 0 0 (by decide) 3 (by decide!) (by decide)
      (by decide!)⟩
/-- C6.  Hard time ceiling: whatever the model and the components do, and
whatever the clock port holds at the start, the loop terminates (the run with
MAX_SIM_TIME + 1 iterations of fuel does not run out of fuel, and more fuel
gives the same run) and the time at the exit of the loop does not exceed
MAX_SIM_TIME. -/
theorem time_ceiling (E : Env ε) (gw : Bool) (e0 : ε) (clk0 rst0 : Nat) :
    (runLoop E gw e0 clk0 rst0).2 ≠ LoopExit.outOfFuel ∧
    (runLoop E gw e0 clk0 rst0).1.time ≤ MAX_SIM_TIME ∧
    ∀ more, mainLoop E gw (MAX_SIM_TIME + 1 + more) (initState e0 clk0 rst0) =
      runLoop E gw e0 clk0 rst0 := by
  have key : (runLoop E gw e0 clk0 rst0).2 ≠ LoopExit.outOfFuel ∧
      (runLoop E gw e0 clk0 rst0).1.time ≤ MAX_SIM_TIME := by
    refine mainLoop_rule E gw (fun s => s.time ≤ MAX_SIM_TIME)
      (fun r => r.2 ≠ LoopExit.outOfFuel ∧ r.1.time ≤ MAX_SIM_TIME)
      ?_ ?_ ?_ ?_ (MAX_SIM_TIME + 1) (initState e0 clk0 rst0)
      (Nat.zero_le _) (by simp only [initState, MAX_SIM_TIME, MAX_SIM_CYCLES]; omega)
    · intro s hP _
      exact ⟨by simp, hP⟩
    · intro s hP _ _
      exact ⟨by simp, hP⟩
    · intro s _ _ ht hk
      have h := tick_time E gw s
      rw [if_pos hk] at h
      show (tick E gw s).1.time ≤ MAX_SIM_TIME
      rw [h]
      exact le_trans (Nat.mod_le _ _) ht
    · intro s x hP _ _ hk
      have h := tick_time E gw s
      rw [if_neg (by rw [hk]; simp)] at h
      refine ⟨?_, ?_⟩
      · rcases tick_cases E gw s with ⟨_, hc⟩ | ⟨_, _, hc⟩ | ⟨_, _, _, _, hc⟩ |
          ⟨_, _, _, _, hc⟩ | ⟨_, _, _, hc⟩ <;> rw [hc] at hk <;> simp at hk <;>
          rw [← hk] <;> simp
      · show (tick E gw s).1.time ≤ MAX_SIM_TIME
        rw [h]
        exact hP
  exact ⟨key.1, key.2, fun more => mainLoop_fuel E gw _ _ key.1 more⟩

/-- C7.  Process exit status: for every error count, transaction count and
done flag the summary ends the process with status 0, whichever of the three
outcomes it reports; so does every run of main. -/
theorem exit_status (E : Env ε) (gw : Bool) (e0 : ε) (clk0 rst0 : Nat) (e m : Nat) (d : Bool) :
    (summary e m d gw).exitStatus = 0 ∧
    (summary e m d gw).exitStatus = EXIT_SUCCESS ∧
    (main E gw e0 clk0 rst0).exitStatus = 0 := by
  have h : ∀ e m d, (summary e m d gw).exitStatus = 0 := by
    intro e m d
    unfold summary
    split_ifs <;> rfl
  exact ⟨h e m d, h e m d, h _ _ _⟩
/-- C8.  Reset suppression: rstDut leaves on the reset port the value the
iteration runs with; in an iteration in which it drives the reset active
(rst_ni = 0) the block of lines 172-220 is not executed: the iteration makes
the calls of the clock step and of lines 224-226 only (no drive, no monitor,
no schedule, no checkData, no watchdog update) and goes on; and whenever the
block is executed the time is above END_OF_RESET_TIME, the clock is high and
the reset is deasserted (rst_ni = 1). -/
theorem reset_suppression (E : Env ε) (gw : Bool) (s : TbState ε) :
    (clockStep E s).rst_ni = rstDut s.rst_ni s.time ∧
    ((clockStep E s).rst_ni = 0 →
      isActive (clockStep E s) = false ∧
      tick E gw s = (advanceStep gw (clockStep E s), none) ∧
      (tick E gw s).1.watchdog = s.watchdog ∧
      tickCalls E gw s =
        [Event.rstDut s.time, Event.clkGen, Event.eval] ++
          (if gw = true then [Event.dump s.time] else []) ++ [Event.timeInc]) ∧
    (isActive (clockStep E s) = true →
      s.time > END_OF_RESET_TIME ∧ (clockStep E s).clk_i = 1 ∧ (clockStep E s).rst_ni = 1) := by
  have hr : (clockStep E s).rst_ni = rstDut s.rst_ni s.time := rfl
  have ht : (clockStep E s).time = s.time := rfl
  refine ⟨hr, ?_, ?_⟩
  · intro h0
    rw [hr] at h0
    have hwin : s.time > 1 ∧ s.time < END_OF_RESET_TIME := by
      by_contra hc
      simp only [rstDut, hc, if_false] at h0
      exact absurd h0 (by decide)
    have hact : isActive (clockStep E s) = false := by
      simp only [isActive, ht, decide_eq_false_iff_not]
      intro hc
      omega
    have hk : tick E gw s = (advanceStep gw (clockStep E s), none) := by
      simp only [tick, hact]
      simp
    refine ⟨hact, hk, ?_, ?_⟩
    · rw [hk]
      exact congrArg Ctl.watchdog (advanceStep_ctl gw (clockStep E s))
    · obtain ⟨tail, htail, heq⟩ := tickCalls_eq E gw s
      rw [heq, hact]
      rcases htail with ⟨h1, _⟩ | ⟨h1, _⟩ | ⟨_, h2⟩
      · rw [hk] at h1; simp at h1
      · rw [hk] at h1; simp at h1
      · rw [h2]
        simp
  · intro hact
    simp only [isActive, ht, decide_eq_true_eq] at hact
    refine ⟨hact.2, hact.1, ?_⟩
    rw [hr]
    have h5 : ¬ (s.time > 1 ∧ s.time < END_OF_RESET_TIME) := by
      intro hc
      omega
    simp only [rstDut, h5, if_false]

/-- C8, two instances: time 3, inside the reset window, and time 6, the first
time at which the block can run. -/
theorem reset_suppression_witness :
    ((clockStep quietEnv (stateAt (⟨0, 0⟩ : Script) 3)).rst_ni = 0 ∧
      isActive (clockStep quietEnv (stateAt (⟨0, 0⟩ : Script) 3)) = false ∧
      tickCalls quietEnv true (stateAt (⟨0, 0⟩ : Script) 3) =
        [Event.rstDut 3, Event.clkGen, Event.eval, Event.dump 3, Event.timeInc]) ∧
    (isActive (clockStep quietEnv (stateAt (⟨0, 0⟩ : Script) 6)) = true ∧
      (clockStep quietEnv (stateAt (⟨0, 0⟩ : Script) 6)).rst_ni = 1) :=
  ⟨⟨by decide,
      ((reset_suppression quietEnv true (stateAt (⟨0, 0⟩ : Script) 3)).2.1 (by decide)).1,
      ((reset_suppression quietEnv true (stateAt (⟨0, 0⟩ : Script) 3)).2.1
        (by decide)).2.2.2⟩,
    ⟨by decide,
      ((reset_suppression quietEnv true (stateAt (⟨0, 0⟩ : Script) 6)).2.2 (by decide)).2.2⟩⟩
/-- The slots stay empty through any number of iterations. -/
theorem ticks_req (E : Env ε) (gw : Bool) (n : Nat) :
    ∀ s : TbState ε, s.obi_req = none → s.reg_req = none →
      (ticks E gw n s).obi_req = none ∧ (ticks E gw n s).reg_req = none := by
  induction n with
  | zero => intro s h1 h2; exact ⟨h1, h2⟩
  | succ n ih =>
    intro s h1 h2
    have h := tick_req E gw s
    apply ih (tick E gw s).1
    · rw [h.1]; split_ifs <;> simp [h1]
    · rw [h.2]; split_ifs <;> simp [h2]

/-- The only drive call of an iteration is the one of line 177, on the two
slots as they are at the start of the iteration. -/
theorem drive_mem_tickCalls (E : Env ε) (gw : Bool) (s : TbState ε) (a : Option ObiReqTx)
    (b : Option RegReqTx) (h : Event.drive a b ∈ tickCalls E gw s) :
    a = s.obi_req ∧ b = s.reg_req := by
  obtain ⟨tail, htail, heq⟩ := tickCalls_eq E gw s
  have hT := tail_isTail E gw s tail htail
  rw [heq] at h
  rcases List.mem_append.mp h with h1 | h1
  · rcases List.mem_append.mp h1 with h2 | h2
    · simp at h2
    · split_ifs at h2
      · rcases List.mem_append.mp h2 with h3 | h3
        · rcases List.mem_append.mp h3 with h4 | h4
          · simp at h4
            exact h4
          · have := scheduleCalls_isSchedule E _ _ (List.mem_reverse.mp h4)
            simp [Event.isSchedule] at this
        · simp at h3
      · simp at h2
  · have := hT _ h1
    simp [Event.isTail] at this

/-- C9.  Driver consume-once: in every active cycle, whatever the request
monitor reports afterwards, the drive call is made on the two pending
requests and both slots are empty right after it (lines 178-181), at the end
of the block and at the end of the iteration; in every later iteration the
drive call, if any, is made with both slots empty, so a request is passed to
drive in at most one cycle. -/
theorem drive_consume_once (E : Env ε) (gw : Bool) (s : TbState ε)
    (hact : isActive (clockStep E s) = true) :
    Event.drive s.obi_req s.reg_req ∈ tickCalls E gw s ∧
    (driveStep E (clockStep E s)).obi_req = none ∧
    (driveStep E (clockStep E s)).reg_req = none ∧
    (activeBlock E (clockStep E s)).1.obi_req = none ∧
    (activeBlock E (clockStep E s)).1.reg_req = none ∧
    (tick E gw s).1.obi_req = none ∧
    (tick E gw s).1.reg_req = none ∧
    ∀ (n : Nat) (a : Option ObiReqTx) (b : Option RegReqTx),
      Event.drive a b ∈ tickCalls E gw (ticks E gw n (tick E gw s).1) →
        a = none ∧ b = none := by
  have h := tick_req E gw s
  rw [if_pos hact, if_pos hact] at h
  have hp := preExit_ctl E (clockStep E s)
  have p1 : (preExit E (clockStep E s)).obi_req = none := congrArg Ctl.obi_req hp
  have p2 : (preExit E (clockStep E s)).reg_req = none := congrArg Ctl.reg_req hp
  have hb : (activeBlock E (clockStep E s)).1.obi_req = none ∧
      (activeBlock E (clockStep E s)).1.reg_req = none := by
    rw [activeBlock_eq]
    simp only [exitStep]
    split_ifs <;> exact ⟨p1, p2⟩
  refine ⟨?_, rfl, rfl, hb.1, hb.2, h.1, h.2, ?_⟩
  · obtain ⟨tail, _, heq⟩ := tickCalls_eq E gw s
    rw [heq, if_pos hact]
    simp
  · intro n a b hmem
    obtain ⟨q1, q2⟩ := ticks_req E gw n (tick E gw s).1 h.1 h.2
    obtain ⟨r1, r2⟩ := drive_mem_tickCalls E gw _ a b hmem
    exact ⟨r1.trans q1, r2.trans q2⟩

/-- C9, an instance: an active cycle entered with a request in each slot. -/
theorem drive_consume_once_witness :
    isActive (clockStep quietEnv
      { stateAt (⟨0, 0⟩ : Script) 6 with
        obi_req := some ⟨⟨1, 1, 15, 4, 7⟩⟩, reg_req := some ⟨⟨1, 0, 15, 8, 0⟩⟩ }) = true ∧
    (tick quietEnv true
      { stateAt (⟨0, 0⟩ : Script) 6 with
        obi_req := some ⟨⟨1, 1, 15, 4, 7⟩⟩, reg_req := some ⟨⟨1, 0, 15, 8, 0⟩⟩ }).1.obi_req
      = none ∧
    (tick quietEnv true
      { stateAt (⟨0, 0⟩ : Script) 6 with
        obi_req := some ⟨⟨1, 1, 15, 4, 7⟩⟩, reg_req := some ⟨⟨1, 0, 15, 8, 0⟩⟩ }).1.reg_req
      = none :=
  ⟨by decide,
    (drive_consume_once quietEnv true
      { stateAt (⟨0, 0⟩ : Script) 6 with
        obi_req := some ⟨⟨1, 1, 15, 4, 7⟩⟩, reg_req := some ⟨⟨1, 0, 15, 8, 0⟩⟩ }
      (by decide)).2.2.2.2.2.1,
    (drive_consume_once quietEnv true
      { stateAt (⟨0, 0⟩ : Script) 6 with
        obi_req := some ⟨⟨1, 1, 15, 4, 7⟩⟩, reg_req := some ⟨⟨1, 0, 15, 8, 0⟩⟩ }
      (by decide)).2.2.2.2.2.2.1⟩
/-- C11.  Transaction generators: for every address a, write data w and mask
m, and whatever the new object holds, genObiWriteReqTx gives req = 1, we = 1,
be = m, addr = a, wdata = w and genRegWriteReqTx gives valid = 1, write = 1,
wstrb = m, addr = a, wdata = w; genObiReadReqTx gives req = 1, we = 0,
be = 0xF, addr = a, wdata = 0 and genRegReadReqTx gives valid = 1, write = 0,
wstrb = 0xF, addr = a, wdata = 0.  So every generated request has its valid
flag set and no read request has its write flag set. -/
theorem generators (fo : ObiReqTx) (fr : RegReqTx) (a w m : Nat) :
    (genObiWriteReqTx fo a w m).obi_req =
      { req := 1, we := 1, be := m, addr := a, wdata := w } ∧
    (genRegWriteReqTx fr a w m).reg_req =
      { valid := 1, write := 1, wstrb := m, addr := a, wdata := w } ∧
    (genObiReadReqTx fo a).obi_req =
      { req := 1, we := 0, be := 0xF, addr := a, wdata := 0 } ∧
    (genRegReadReqTx fr a).reg_req =
      { valid := 1, write := 0, wstrb := 0xF, addr := a, wdata := 0 } ∧
    (genObiWriteReqTx fo a w m).obi_req.req = 1 ∧
    (genObiReadReqTx fo a).obi_req.req = 1 ∧
    (genRegWriteReqTx fr a w m).reg_req.valid = 1 ∧
    (genRegReadReqTx fr a).reg_req.valid = 1 ∧
    (genObiReadReqTx fo a).obi_req.we = 0 ∧
    (genRegReadReqTx fr a).reg_req.write = 0 :=
  ⟨rfl, rfl, rfl, rfl, rfl, rfl, rfl, rfl, rfl, rfl⟩

/-- C12.  Reset window: for every time t and every previous value of the
reset port, rstDut leaves rst_ni = 0 exactly when 1 < t < END_OF_RESET_TIME,
that is for t = 2, 3, 4, and rst_ni = 1 otherwise; the reset is not asserted
at t = 0 and t = 1 and is never asserted from t = 5 on. -/
theorem reset_window (prev t : Nat) :
    (rstDut prev t = 0 ↔ 1 < t ∧ t < END_OF_RESET_TIME) ∧
    (rstDut prev t = 1 ↔ ¬ (1 < t ∧ t < END_OF_RESET_TIME)) ∧
    (rstDut prev t = 0 ↔ t = 2 ∨ t = 3 ∨ t = 4) ∧
    (rstDut prev t = 0 ∨ rstDut prev t = 1) ∧
    rstDut prev 0 = 1 ∧ rstDut prev 1 = 1 ∧
    rstDut prev 2 = 0 ∧ rstDut prev 3 = 0 ∧ rstDut prev 4 = 0 ∧
    (5 ≤ t → rstDut prev t = 1) := by
  have h : rstDut prev t = if 1 < t ∧ t < END_OF_RESET_TIME then 0 else 1 := rfl
  refine ⟨?_, ?_, ?_, ?_, rfl, rfl, rfl, rfl, rfl, ?_⟩
  · rw [h]; split_ifs with c <;> simp [c]
  · rw [h]; split_ifs with c <;> simp [c]
  · rw [h]
    simp only [END_OF_RESET_TIME]
    split_ifs with c
    · simp; omega
    · simp; omega
  · rw [h]; split_ifs <;> simp
  · intro h5
    rw [h]
    simp only [END_OF_RESET_TIME]
    rw [if_neg (by omega)]
/-! ## runCycles -/

theorem advanceStep_sim_cycles (gw : Bool) (s : TbState ε) :
    (advanceStep gw s).sim_cycles =
      if s.clk_i = 1 then (s.sim_cycles + 1) % 2 ^ 64 else s.sim_cycles := by
  simp only [advanceStep]
  split_ifs <;> simp_all

/-- One step of runCycles on the clock, the time and the cycle count. -/
theorem runCyclesStep_fields (E : Env ε) (gw : Bool) (s : TbState ε) :
    (runCyclesStep E gw s).clk_i = clkGen s.clk_i ∧
    (runCyclesStep E gw s).time = (s.time + 1) % 2 ^ 64 ∧
    (runCyclesStep E gw s).sim_cycles =
      if clkGen s.clk_i = 1 then (s.sim_cycles + 1) % 2 ^ 64 else s.sim_cycles := by
  unfold runCyclesStep
  refine ⟨?_, ?_, ?_⟩
  · exact congrArg Ctl.clk_i (advanceStep_ctl gw _)
  · exact congrArg Ctl.time (advanceStep_ctl gw _)
  · rw [advanceStep_sim_cycles]

/-- Two steps of runCycles: one full clock cycle. -/
theorem runCyclesStep_twice (E : Env ε) (gw : Bool) (s : TbState ε) (hclk : s.clk_i ≤ 1) :
    (runCyclesStep E gw (runCyclesStep E gw s)).clk_i = s.clk_i ∧
    (runCyclesStep E gw (runCyclesStep E gw s)).time = (s.time + 2) % 2 ^ 64 ∧
    (runCyclesStep E gw (runCyclesStep E gw s)).sim_cycles = (s.sim_cycles + 1) % 2 ^ 64 := by
  obtain ⟨a1, a2, a3⟩ := runCyclesStep_fields E gw s
  obtain ⟨b1, b2, b3⟩ := runCyclesStep_fields E gw (runCyclesStep E gw s)
  rw [b1, b2, b3, a1, a2, a3]
  have p : (2 : Nat) ^ 64 = 18446744073709551616 := by norm_num
  rw [p]
  rcases Nat.le_one_iff_eq_zero_or_eq_one.mp hclk with h | h
  · rw [h, clkGen_zero, clkGen_one]
    refine ⟨rfl, by omega, ?_⟩
    simp
  · rw [h, clkGen_one, clkGen_zero]
    refine ⟨rfl, by omega, ?_⟩
    simp

/-- An even number of steps of runCycles. -/
theorem runCyclesStep_even (E : Env ε) (gw : Bool) (k : Nat) :
    ∀ s : TbState ε, s.clk_i ≤ 1 → s.time < 2 ^ 64 → s.sim_cycles < 2 ^ 64 →
      ((runCyclesStep E gw)^[2 * k] s).clk_i = s.clk_i ∧
      ((runCyclesStep E gw)^[2 * k] s).time = (s.time + 2 * k) % 2 ^ 64 ∧
      ((runCyclesStep E gw)^[2 * k] s).sim_cycles = (s.sim_cycles + k) % 2 ^ 64 := by
  induction k with
  | zero =>
    intro s _ ht hs
    exact ⟨rfl, (Nat.mod_eq_of_lt ht).symm, (Nat.mod_eq_of_lt hs).symm⟩
  | succ k ih =>
    intro s hclk _ _
    obtain ⟨t1, t2, t3⟩ := runCyclesStep_twice E gw s hclk
    have e : 2 * (k + 1) = (2 * k + 1) + 1 := by omega
    rw [e, Function.iterate_succ_apply, Function.iterate_succ_apply]
    obtain ⟨i1, i2, i3⟩ := ih (runCyclesStep E gw (runCyclesStep E gw s)) (by rw [t1]; exact hclk)
      (by rw [t2]; exact Nat.mod_lt _ (by norm_num))
      (by rw [t3]; exact Nat.mod_lt _ (by norm_num))
    rw [i1, i2, i3, t1, t2, t3]
    have p : (2 : Nat) ^ 64 = 18446744073709551616 := by norm_num
    rw [p]
    refine ⟨rfl, by omega, by omega⟩

/-- The for loop of runCycles makes the steps that are left to its bound. -/
theorem runCyclesLoop_eq (E : Env ε) (gw : Bool) (bound : Nat) (hb : bound < 2 ^ 32) :
    ∀ (fuel i : Nat) (s : TbState ε), i ≤ bound → bound - i < fuel →
      runCyclesLoop E gw bound fuel i s = some ((runCyclesStep E gw)^[bound - i] s) := by
  intro fuel
  induction fuel with
  | zero => intro i s _ h; omega
  | succ n ih =>
    intro i s hi hfuel
    unfold runCyclesLoop
    by_cases hlt : i < bound
    · have hmod : (i + 1) % 2 ^ 32 = i + 1 := Nat.mod_eq_of_lt (by omega)
      have e : bound - i = (bound - (i + 1)) + 1 := by omega
      rw [if_pos hlt, hmod, ih (i + 1) _ (by omega) (by omega), e,
        Function.iterate_succ_apply]
    · have e : bound - i = 0 := by omega
      rw [if_neg hlt, e]
      rfl

/-- C15.  runCycles arithmetic: for every ncycles and every state whose clock
port holds 0 or 1 (time and sim_cycles being 64-bit values), runCycles
returns after exactly s = (2 * ncycles) mod 2^32 steps of its loop body; the
time has advanced by s and sim_cycles has increased by s / 2 (as 64-bit
counters: outright when that does not pass 2^64), and clk_i holds its
starting value, clkGen applied twice being the identity; for ncycles < 2^31,
s is 2 * ncycles and s / 2 is ncycles. -/
theorem runCycles_arith (E : Env ε) (gw : Bool) (ncycles : Nat) (s : TbState ε)
    (hclk : s.clk_i ≤ 1) (ht : s.time < 2 ^ 64) (hs : s.sim_cycles < 2 ^ 64) :
    runCycles E ncycles gw s =
      some ((runCyclesStep E gw)^[(2 * ncycles) % 2 ^ 32] s) ∧
    ((runCyclesStep E gw)^[(2 * ncycles) % 2 ^ 32] s).time =
      (s.time + (2 * ncycles) % 2 ^ 32) % 2 ^ 64 ∧
    ((runCyclesStep E gw)^[(2 * ncycles) % 2 ^ 32] s).sim_cycles =
      (s.sim_cycles + (2 * ncycles) % 2 ^ 32 / 2) % 2 ^ 64 ∧
    ((runCyclesStep E gw)^[(2 * ncycles) % 2 ^ 32] s).clk_i = s.clk_i ∧
    clkGen (clkGen s.clk_i) = s.clk_i ∧
    (s.time + (2 * ncycles) % 2 ^ 32 < 2 ^ 64 →
      ((runCyclesStep E gw)^[(2 * ncycles) % 2 ^ 32] s).time =
        s.time + (2 * ncycles) % 2 ^ 32) ∧
    (s.sim_cycles + (2 * ncycles) % 2 ^ 32 / 2 < 2 ^ 64 →
      ((runCyclesStep E gw)^[(2 * ncycles) % 2 ^ 32] s).sim_cycles =
        s.sim_cycles + (2 * ncycles) % 2 ^ 32 / 2) ∧
    (ncycles < 2 ^ 31 →
      (2 * ncycles) % 2 ^ 32 = 2 * ncycles ∧ (2 * ncycles) % 2 ^ 32 / 2 = ncycles) := by
  have p32 : (2 : Nat) ^ 32 = 4294967296 := by norm_num
  have p31 : (2 : Nat) ^ 31 = 2147483648 := by norm_num
  have hk : (2 * ncycles) % 2 ^ 32 = 2 * (ncycles % 2 ^ 31) := by
    rw [p32, p31]; omega
  have hhalf : (2 * ncycles) % 2 ^ 32 / 2 = ncycles % 2 ^ 31 := by
    rw [hk]; omega
  have hrun : runCycles E ncycles gw s =
      some ((runCyclesStep E gw)^[(2 * ncycles) % 2 ^ 32] s) := by
    unfold runCycles
    rw [runCyclesLoop_eq E gw _ (Nat.mod_lt _ (by norm_num)) _ 0 s (Nat.zero_le _) (by omega)]
    rfl
  obtain ⟨e1, e2, e3⟩ := runCyclesStep_even E gw (ncycles % 2 ^ 31) s hclk ht hs
  rw [← hk] at e1 e2 e3
  rw [← hhalf] at e3
  have hcc : clkGen (clkGen s.clk_i) = s.clk_i := by
    rcases Nat.le_one_iff_eq_zero_or_eq_one.mp hclk with h | h <;> rw [h] <;> rfl
  refine ⟨hrun, e2, e3, e1, hcc, fun h => ?_, fun h => ?_, fun h => ?_⟩
  · rw [e2]; exact Nat.mod_eq_of_lt h
  · rw [e3]; exact Nat.mod_eq_of_lt h
  · rw [p31] at h
    rw [p32]
    omega

/-- C15, an instance: three cycles from time 10 with the clock low. -/
theorem runCycles_arith_witness :
    ((stateAt (⟨0, 0⟩ : Script) 10).clk_i ≤ 1 ∧
      (stateAt (⟨0, 0⟩ : Script) 10).time < 2 ^ 64 ∧
      (stateAt (⟨0, 0⟩ : Script) 10).sim_cycles < 2 ^ 64) ∧
    runCycles quietEnv 3 true (stateAt (⟨0, 0⟩ : Script) 10) =
      some ((runCyclesStep quietEnv true)^[(2 * 3) % 2 ^ 32] (stateAt (⟨0, 0⟩ : Script) 10)) ∧
    ((runCyclesStep quietEnv true)^[(2 * 3) % 2 ^ 32] (stateAt (⟨0, 0⟩ : Script) 10)).time =
      (10 + (2 * 3) % 2 ^ 32) % 2 ^ 64 :=
  ⟨⟨by decide, by decide, by decide⟩,
    (runCycles_arith quietEnv true 3 (stateAt (⟨0, 0⟩ : Script) 10) (by decide) (by decide)
      (by decide)).1,
    (runCycles_arith quietEnv true 3 (stateAt (⟨0, 0⟩ : Script) 10) (by decide) (by decide)
      (by decide)).2.1⟩
/-! ## The states of a run: lemmas -/

/-- The proof rule of loopHead: what one iteration that goes on preserves
holds whenever the loop condition is evaluated. -/
theorem loopHead_rule (E : Env ε) (gw : Bool) (P : TbState ε → Prop)
    (h : ∀ s, P s → E.gotFinish s.env = false → s.time < MAX_SIM_TIME →
      (tick E gw s).2 = none → P (tick E gw s).1) :
    ∀ (n : Nat) (s0 s : TbState ε), P s0 → loopHead E gw n s0 = some s → P s := by
  intro n
  induction n with
  | zero =>
    intro s0 s hP hs
    simp only [loopHead, Option.some.injEq] at hs
    rw [← hs]
    exact hP
  | succ n ih =>
    intro s0 s hP hs
    unfold loopHead at hs
    by_cases hf : E.gotFinish s0.env = true
    · simp [hf] at hs
    · have hf2 : E.gotFinish s0.env = false := by simpa using hf
      by_cases ht : s0.time < MAX_SIM_TIME
      · simp only [hf2, ht, not_true_eq_false, if_false, Bool.false_eq_true] at hs
        cases hk : (tick E gw s0).2 with
        | some x =>
          have hpair : tick E gw s0 = ((tick E gw s0).1, some x) := by rw [← hk]
          rw [hpair] at hs
          simp at hs
        | none =>
          have hpair : tick E gw s0 = ((tick E gw s0).1, none) := by rw [← hk]
          rw [hpair] at hs
          exact ih _ s (h s0 hP hf2 ht hk) hs
      · simp [hf2, ht] at hs

/-- The states of loopHead are the states the loop passes through: the run
from such a state is the rest of the run. -/
theorem mainLoop_loopHead (E : Env ε) (gw : Bool) :
    ∀ (n : Nat) (s0 s : TbState ε) (fuel : Nat), loopHead E gw n s0 = some s →
      mainLoop E gw (fuel + n) s0 = mainLoop E gw fuel s := by
  intro n
  induction n with
  | zero =>
    intro s0 s fuel hs
    simp only [loopHead, Option.some.injEq] at hs
    rw [hs]
    rfl
  | succ n ih =>
    intro s0 s fuel hs
    unfold loopHead at hs
    have e : fuel + (n + 1) = (fuel + n) + 1 := by omega
    rw [e, mainLoop]
    by_cases hf : E.gotFinish s0.env = true
    · simp [hf] at hs
    · have hf2 : E.gotFinish s0.env = false := by simpa using hf
      by_cases ht : s0.time < MAX_SIM_TIME
      · simp only [hf2, ht, not_true_eq_false, if_false, Bool.false_eq_true] at hs ⊢
        cases hk : (tick E gw s0).2 with
        | some x =>
          have hpair : tick E gw s0 = ((tick E gw s0).1, some x) := by rw [← hk]
          rw [hpair] at hs
          simp at hs
        | none =>
          have hpair : tick E gw s0 = ((tick E gw s0).1, none) := by rw [← hk]
          rw [hpair] at hs ⊢
          exact ih _ s fuel hs
      · simp [hf2, ht] at hs

/-- C13.  Implicit bound on run length (the clock port holding one bit):
whenever the loop condition is evaluated, and when the loop is left,
step_cnt = prev_step_cnt = 0 and the watchdog counter is the number of active
cycles executed so far, at most WATCHDOG_TIMEOUT while the loop goes on; so,
whatever the model and the scoreboard do, the loop executes at most
WATCHDOG_TIMEOUT + 1 = 101 active cycles and is never left by the
MAX_SIM_TIME ceiling. -/
theorem run_length_bound (E : Env ε) (gw : Bool) (e0 : ε) (clk0 rst0 : Nat) (hclk : clk0 ≤ 1) :
    (∀ n s, loopHead E gw n (initState e0 clk0 rst0) = some s →
      s.step_cnt = 0 ∧ s.prev_step_cnt = 0 ∧ s.watchdog = activeCycles s.log ∧
      s.watchdog ≤ WATCHDOG_TIMEOUT) ∧
    ((runLoop E gw e0 clk0 rst0).1.step_cnt = 0 ∧
      (runLoop E gw e0 clk0 rst0).1.prev_step_cnt = 0 ∧
      (runLoop E gw e0 clk0 rst0).1.watchdog =
        activeCycles (runLoop E gw e0 clk0 rst0).1.log) ∧
    activeCycles (runLoop E gw e0 clk0 rst0).1.log ≤ WATCHDOG_TIMEOUT + 1 ∧
    (runLoop E gw e0 clk0 rst0).2 ≠ LoopExit.ceiling := by
  have hpost := runLoop_post E gw e0 clk0 rst0 hclk
  unfold LoopPost at hpost
  refine ⟨fun n s hs => ?_, runLoop_counters E gw e0 clk0 rst0 hclk, ?_, ?_⟩
  · have hI : LoopInv s :=
      loopHead_rule E gw LoopInv (fun q hq _ ht hk => ((tick_step E gw hq ht).1 hk).1)
        n _ s (initState_inv e0 clk0 rst0 hclk) hs
    exact ⟨hI.step, hI.prev, hI.wd, hI.wd_le⟩
  · cases hx : (runLoop E gw e0 clk0 rst0).2 <;> rw [hx] at hpost <;> simp only at hpost
    · have h1 := hpost.1.wd
      have h2 := hpost.1.wd_le
      simp only [TbState.ctl] at h1 h2
      omega
    · omega
    · obtain ⟨k, _, h2, h3, _⟩ := hpost
      omega
  · intro hx
    rw [hx] at hpost
    exact hpost

set_option maxRecDepth 100000 in
/-- C13, an instance: the run in which nothing happens executes 101 active
cycles, and its loop condition is evaluated for the eleventh time after two
active cycles. -/
theorem run_length_bound_witness :
    (0 : Nat) ≤ 1 ∧
    activeCycles (runLoop quietEnv true ⟨0, 0⟩ 0 0).1.log ≤ WATCHDOG_TIMEOUT + 1 ∧
    (runLoop quietEnv true ⟨0, 0⟩ 0 0).2 ≠ LoopExit.ceiling ∧
    (loopHead quietEnv true 10 (initState (⟨0, 0⟩ : Script) 0 0)).isSome = true :=
  ⟨by decide, (run_length_bound quietEnv true ⟨0, 0⟩ 0 0 (by decide)).2.2.1,
    (run_length_bound quietEnv true ⟨0, 0⟩ 0 0 (by decide)).2.2.2, by decide!⟩
/-- The two check requests are not written by an iteration. -/
theorem tick_check_req (E : Env ε) (gw : Bool) (s : TbState ε) :
    (tick E gw s).1.obi_check_req = s.obi_check_req ∧
    (tick E gw s).1.reg_check_req = s.reg_check_req := by
  have hp := preExit_ctl E (clockStep E s)
  have p1 : (preExit E (clockStep E s)).obi_check_req = s.obi_check_req :=
    congrArg Ctl.obi_check_req hp
  have p2 : (preExit E (clockStep E s)).reg_check_req = s.reg_check_req :=
    congrArg Ctl.reg_check_req hp
  rcases tick_cases E gw s with ⟨_, hk⟩ | ⟨_, _, hk⟩ | ⟨_, _, _, _, hk⟩ |
    ⟨_, _, _, _, hk⟩ | ⟨_, _, _, hk⟩ <;> rw [hk]
  · exact ⟨congrArg Ctl.obi_check_req (advanceStep_ctl gw _),
      congrArg Ctl.reg_check_req (advanceStep_ctl gw _)⟩
  · exact ⟨p1, p2⟩
  · exact ⟨p1, p2⟩
  · exact ⟨(congrArg Ctl.obi_check_req (advanceStep_ctl gw _)).trans p1,
      (congrArg Ctl.reg_check_req (advanceStep_ctl gw _)).trans p2⟩
  · exact ⟨(congrArg Ctl.obi_check_req (advanceStep_ctl gw _)).trans p1,
      (congrArg Ctl.reg_check_req (advanceStep_ctl gw _)).trans p2⟩

/-- One iteration, however it ends, gives no stimulus when none was given
before. -/
theorem tick_noStimulus (E : Env ε) (gw : Bool) (s : TbState ε) (h : NoStimulus s) :
    NoStimulus (tick E gw s).1 := by
  obtain ⟨h1, h2, h3, h4, h5, h6⟩ := h
  obtain ⟨r1, r2⟩ := tick_req E gw s
  obtain ⟨c1, c2⟩ := tick_check_req E gw s
  obtain ⟨post, hpost, hlog⟩ := tick_log E gw s
  have hsched : scheduleCalls E (clockStep E s) = [] := by
    have a1 : (clockStep E s).obi_check_req = none := h3
    have a2 : (clockStep E s).reg_check_req = none := h4
    simp [scheduleCalls, a1, a2]
  have hq : ∀ ev ∈ post, ev.isSchedule = false ∧ ev.isDrive = false := by
    intro ev hev
    rcases hpost with ⟨_, hp⟩ | ⟨_, hp⟩ | ⟨_, hp⟩ <;> rw [hp] at hev
    · simp at hev
      rcases hev with e | e <;> subst e <;> exact ⟨rfl, rfl⟩
    · simp at hev
      subst hev
      exact ⟨rfl, rfl⟩
    · split_ifs at hev <;> simp at hev
      · rcases hev with e | e <;> subst e <;> exact ⟨rfl, rfl⟩
      · subst hev
        exact ⟨rfl, rfl⟩
  rw [hsched, h1, h2] at hlog
  refine ⟨?_, ?_, c1.trans h3, c2.trans h4, ?_, ?_⟩
  · rw [r1]; split_ifs <;> simp [h1]
  · rw [r2]; split_ifs <;> simp [h2]
  · intro ev hev
    rw [hlog] at hev
    rcases List.mem_append.mp hev with m1 | m1
    · rcases List.mem_append.mp m1 with m2 | m2
      · exact (hq ev m2).1
      · rcases List.mem_append.mp m2 with m3 | m3
        · split_ifs at m3
          · simp at m3
            rcases m3 with e | e | e | e | e <;> subst e <;> rfl
          · simp at m3
        · simp at m3
          rcases m3 with e | e | e <;> subst e <;> rfl
    · exact h5 ev m1
  · intro a b hev
    rw [hlog] at hev
    rcases List.mem_append.mp hev with m1 | m1
    · rcases List.mem_append.mp m1 with m2 | m2
      · have := (hq _ m2).2
        simp [Event.isDrive] at this
      · rcases List.mem_append.mp m2 with m3 | m3
        · split_ifs at m3
          · simp at m3
            exact m3
          · simp at m3
        · simp at m3
    · exact h6 a b m1

/-- C14.  Implicit no-stimulus invariant: in every run, whatever the model and
the components do and whatever acceptance the request monitor reports, the
four request pointers obi_req, reg_req, obi_check_req and reg_check_req are
NULL whenever the loop condition is evaluated, hence at the start of every
active cycle; every drive call of the run is made with both slots empty, and
the run contains no scheduleObiCheck and no scheduleRegCheck call. -/
theorem no_stimulus (E : Env ε) (gw : Bool) (e0 : ε) (clk0 rst0 : Nat) :
    (∀ n s, loopHead E gw n (initState e0 clk0 rst0) = some s →
      s.obi_req = none ∧ s.reg_req = none ∧ s.obi_check_req = none ∧
      s.reg_check_req = none ∧
      (clockStep E s).obi_req = none ∧ (clockStep E s).reg_req = none ∧
      (clockStep E s).obi_check_req = none ∧ (clockStep E s).reg_check_req = none) ∧
    (∀ a b, Event.drive a b ∈ (runLoop E gw e0 clk0 rst0).1.log → a = none ∧ b = none) ∧
    (∀ ev ∈ (runLoop E gw e0 clk0 rst0).1.log, ev.isSchedule = false) ∧
    (∀ d, Event.scheduleObiCheck d ∉ (runLoop E gw e0 clk0 rst0).1.log ∧
      Event.scheduleRegCheck d ∉ (runLoop E gw e0 clk0 rst0).1.log) := by
  have h0 : NoStimulus (initState e0 clk0 rst0) := by
    refine ⟨rfl, rfl, rfl, rfl, ?_, ?_⟩
    · intro ev hev
      simp [initState] at hev
    · intro a b hev
      simp [initState] at hev
  have hfinal : NoStimulus (runLoop E gw e0 clk0 rst0).1 := by
    refine mainLoop_rule E gw NoStimulus (fun r => NoStimulus r.1) ?_ ?_ ?_ ?_
      (MAX_SIM_TIME + 1) (initState e0 clk0 rst0) h0
      (by simp only [initState, MAX_SIM_TIME, MAX_SIM_CYCLES]; omega)
    · intro s hP _
      exact hP
    · intro s hP _ _
      exact hP
    · intro s hP _ _ _
      exact tick_noStimulus E gw s hP
    · intro s x hP _ _ _
      exact tick_noStimulus E gw s hP
  obtain ⟨_, _, _, _, f5, f6⟩ := hfinal
  refine ⟨fun n s hs => ?_, f6, f5, fun d => ⟨fun hm => ?_, fun hm => ?_⟩⟩
  · have hN : NoStimulus s :=
      loopHead_rule E gw NoStimulus (fun q hq _ _ _ => tick_noStimulus E gw q hq)
        n _ s h0 hs
    exact ⟨hN.1, hN.2.1, hN.2.2.1, hN.2.2.2.1, hN.1, hN.2.1, hN.2.2.1, hN.2.2.2.1⟩
  · have := f5 _ hm
    simp [Event.isSchedule] at this
  · have := f5 _ hm
    simp [Event.isSchedule] at this

set_option maxRecDepth 100000 in
/-- C14, an instance: in the run in which every request is reported as
accepted in every cycle, the loop condition is evaluated for the eleventh
time with the four pointers NULL and nothing is scheduled. -/
theorem no_stimulus_witness :
    (loopHead acceptingEnv true 10 (initState (⟨0, 0⟩ : Script) 0 0)).isSome = true ∧
    (∀ s, loopHead acceptingEnv true 10 (initState (⟨0, 0⟩ : Script) 0 0) = some s →
      s.obi_req = none ∧ s.reg_req = none ∧ s.obi_check_req = none ∧
      s.reg_check_req = none) ∧
    Event.scheduleObiCheck 0 ∉ (runLoop acceptingEnv true ⟨0, 0⟩ 0 0).1.log ∧
    Event.scheduleRegCheck 0 ∉ (runLoop acceptingEnv true ⟨0, 0⟩ 0 0).1.log :=
  ⟨by decide!,
    fun s hs =>
      ⟨((no_stimulus acceptingEnv true ⟨0, 0⟩ 0 0).1 10 s hs).1,
        ((no_stimulus acceptingEnv true ⟨0, 0⟩ 0 0).1 10 s hs).2.1,
        ((no_stimulus acceptingEnv true ⟨0, 0⟩ 0 0).1 10 s hs).2.2.1,
        ((no_stimulus acceptingEnv true ⟨0, 0⟩ 0 0).1 10 s hs).2.2.2.1⟩,
    ((no_stimulus acceptingEnv true ⟨0, 0⟩ 0 0).2.2.2 0).1,
    ((no_stimulus acceptingEnv true ⟨0, 0⟩ 0 0).2.2.2 0).2⟩

end Conv1dTb
